import Mathlib

/-!
# umanager: protocol bridging and identifier translation

A shallow embedding of the two tiers of the bookmark service:

* `linkgrpc.Handler` and `usergrpc.Handler` (`internal/link/linkgrpc/handler.go`,
  `internal/user/usergrpc/handler.go`): the RPC handlers that parse wire identifiers and
  delegate to a repository;
* `v1.linksHandler` and `v1.usersHandler` (`internal/apigw/v1/links.go`,
  `internal/apigw/v1/users.go`): the HTTP gateway handlers.

Go `string` values are Lean `String`s (protobuf string fields are valid UTF-8); wherever the
code looks at bytes (`len`, indexing, hex decoding) the UTF-8 bytes of the string are used,
as natural numbers below 256.  The errors of the parsers and of the JSON decoder are
inductive types with an `Error` function for their text; the error of a repository call is
represented by its text, the error of an RPC call by its status (code and message).
Every handler returns, next to its result, the list of calls it made on its collaborator
(repository or RPC client), so that "makes no call" is a statement about that list.
-/

set_option linter.dupNamespace false

namespace Umanager

deriving instance DecidableEq for Except

/-! ## Go values: strings, bytes, slices -/

/-- UTF-8 encoding of one code point, as byte values. -/
def utf8Bytes (c : Char) : List Nat :=
  let v := c.toNat
  if v < 0x80 then [v]
  else if v < 0x800 then [0xC0 + v / 0x40, 0x80 + v % 0x40]
  else if v < 0x10000 then [0xE0 + v / 0x1000, 0x80 + v / 0x40 % 0x40, 0x80 + v % 0x40]
  else [0xF0 + v / 0x40000, 0x80 + v / 0x1000 % 0x40, 0x80 + v / 0x40 % 0x40, 0x80 + v % 0x40]

/-- The bytes of a sequence of code points. -/
def bytesOfChars : List Char → List Nat
  | [] => []
  | c :: cs => utf8Bytes c ++ bytesOfChars cs

/-- The bytes of a Go string, `[]byte(s)`. -/
def bytes (s : String) : List Nat := bytesOfChars s.data

/-- Go `len(s)` for a string: the number of bytes. -/
def len (s : String) : Nat := (bytes s).length

/-- A Go slice value.  `null` is the nil slice, which is distinct from an empty non-nil
slice (the JSON encoder tells them apart). -/
inductive Slice (α : Type) where
  | null : Slice α
  | mk (elems : List α) : Slice α
  deriving DecidableEq, Repr

namespace Slice

/-- The elements a `for ... range` loop visits, in order. -/
def toList {α : Type} : Slice α → List α
  | null => []
  | mk xs => xs

/-- Go `append(s, x)`: appending to the nil slice allocates. -/
def append {α : Type} : Slice α → α → Slice α
  | null, x => mk [x]
  | mk xs, x => mk (xs ++ [x])

end Slice

/-! ## `fmt` verbs used by the error texts -/

namespace fmt

/-- Upper-case hexadecimal digit (`0123456789ABCDEF`, the digit table of `%U` and `%X`). -/
def udigit (n : Nat) : Char :=
  if n < 10 then Char.ofNat (48 + n) else Char.ofNat (55 + n)

/-- Lower-case hexadecimal digit (`0123456789abcdef`). -/
def ldigit (n : Nat) : Char :=
  if n < 10 then Char.ofNat (48 + n) else Char.ofNat (87 + n)

/-- `strconv.IsPrint` on the Latin-1 range (its fast path); callers pass byte values. -/
def isPrintLatin1 (r : Nat) : Bool :=
  if 0x20 ≤ r ∧ r ≤ 0x7E then true
  else if 0xA1 ≤ r ∧ r ≤ 0xFF then r ≠ 0xAD
  else false

/-- The verb `%#U` applied to a rune below 0x100: `U+00XX`, followed by the quoted
character when it is printable. -/
def sharpU (r : Nat) : String :=
  let code := String.mk [Char.ofNat 85, Char.ofNat 43, Char.ofNat 48, Char.ofNat 48,
    udigit (r / 16 % 16), udigit (r % 16)]
  if isPrintLatin1 r then code ++ " " ++ String.mk [Char.ofNat 39, Char.ofNat r, Char.ofNat 39]
  else code

/-- The verb `%d` applied to a non-negative integer. -/
def decimal (n : Nat) : String := String.mk (Nat.toDigits 10 n)

end fmt

/-! ## `encoding/hex` -/

namespace hex

/-- The errors of `hex.Decode`. -/
inductive Error where
  | InvalidByteError (b : Nat)
  | ErrLength
  deriving DecidableEq, Repr

/-- The text of a hex error (`Error()`). -/
def Error.Error : hex.Error → String
  | .InvalidByteError b => "encoding/hex: invalid byte: " ++ fmt.sharpU b
  | .ErrLength => "encoding/hex: odd length hex string"

/-- Lookup in `reverseHexTable`: the value of a hexadecimal digit, `0xff` for any other byte. -/
def reverseHexTable (c : Nat) : Nat :=
  if 48 ≤ c ∧ c ≤ 57 then c - 48
  else if 97 ≤ c ∧ c ≤ 102 then c - 97 + 10
  else if 65 ≤ c ∧ c ≤ 70 then c - 65 + 10
  else 0xff

/-- `hex.Decode`: decodes pairs of hexadecimal digits; the first bad byte is reported, and
an odd trailing byte is a length error. -/
def Decode : List Nat → Except hex.Error (List Nat)
  | p :: q :: rest =>
    let a := reverseHexTable p
    let b := reverseHexTable q
    if a > 0x0f then .error (.InvalidByteError p)
    else if b > 0x0f then .error (.InvalidByteError q)
    else
      match Decode rest with
      | .error e => .error e
      | .ok out => .ok ((a * 16 + b) :: out)
  | [p] =>
    if reverseHexTable p > 0x0f then .error (.InvalidByteError p) else .error .ErrLength
  | [] => .ok []

/-- `hex.EncodeToString`: two lower-case digits per byte. -/
def EncodeToString (bs : List Nat) : String :=
  String.mk (bs.foldr (fun v acc => fmt.ldigit (v / 16 % 16) :: fmt.ldigit (v % 16) :: acc) [])

end hex

/-! ## `bson/primitive`: the Link identifier -/

namespace primitive

/-- An `ObjectID` is `[12]byte`. -/
structure ObjectID where
  data : List Nat
  deriving DecidableEq, Repr

/-- The errors of `ObjectIDFromHex`. -/
inductive Error where
  | ErrInvalidHex
  | decode (e : hex.Error)
  deriving DecidableEq, Repr

/-- The text of an identifier error. -/
def Error.Error : primitive.Error → String
  | .ErrInvalidHex => "the provided hex string is not a valid ObjectID"
  | .decode e => e.Error

/-- `primitive.ObjectIDFromHex`: the string must have length 24 and decode as hexadecimal. -/
def ObjectIDFromHex (s : String) : Except primitive.Error ObjectID :=
  if len s ≠ 24 then .error .ErrInvalidHex
  else
    match hex.Decode (bytes s) with
    | .error e => .error (.decode e)
    | .ok oid => .ok ⟨oid⟩

/-- `ObjectID.Hex`: the identifier as 24 lower-case hexadecimal digits. -/
def ObjectID.Hex (id : ObjectID) : String := hex.EncodeToString id.data

end primitive

/-! ## `google/uuid`: the User identifier -/

namespace uuid

/-- A `UUID` is `[16]byte`. -/
structure UUID where
  data : List Nat
  deriving DecidableEq, Repr

/-- The zero value of `UUID` (`uuid.Nil`). -/
def Nil : UUID := ⟨List.replicate 16 0⟩

/-- The errors of `uuid.Parse`. -/
inductive Error where
  | invalidLength (n : Nat)
  | invalidFormat
  | invalidURN (head : List Nat)
  deriving DecidableEq, Repr

/-- The text of a parse error.  The verb `%q` (`strconv.Quote`) of the URN error is the
parameter `quote`: its Unicode tables are outside this development. -/
def Error.Error (quote : List Nat → String) : uuid.Error → String
  | .invalidLength n => "invalid UUID length: " ++ fmt.decimal n
  | .invalidFormat => "invalid UUID format"
  | .invalidURN head => "invalid urn prefix: " ++ quote head

/-- Lookup in `xvalues`: the value of a hexadecimal digit, 255 for any other byte. -/
def xvalues (c : Nat) : Nat :=
  if 48 ≤ c ∧ c ≤ 57 then c - 48
  else if 65 ≤ c ∧ c ≤ 70 then c - 65 + 10
  else if 97 ≤ c ∧ c ≤ 102 then c - 97 + 10
  else 255

/-- `xtob`: two hexadecimal digits to a byte, and whether both were digits. -/
def xtob (x1 x2 : Nat) : Nat × Bool :=
  let b1 := xvalues x1
  let b2 := xvalues x2
  (((b1 <<< 4) % 256) ||| b2, b1 ≠ 255 && b2 ≠ 255)

/-- The byte `s[i]`. -/
def byteAt (s : List Nat) (i : Nat) : Nat := s.getD i 0

/-- The decoding loop of `Parse`: one byte per listed offset, stopping at the first pair
that is not hexadecimal. -/
def decodeAt (s : List Nat) : List Nat → Except uuid.Error (List Nat)
  | [] => .ok []
  | x :: xs =>
    match xtob (byteAt s x) (byteAt s (x + 1)) with
    | (_, false) => .error .invalidFormat
    | (v, true) =>
      match decodeAt s xs with
      | .error e => .error e
      | .ok out => .ok (v :: out)

/-- ASCII lower-casing of one byte. -/
def lower (c : Nat) : Nat := if 65 ≤ c ∧ c ≤ 90 then c + 32 else c

/-- `strings.EqualFold(head, "urn:uuid:")`.  None of the letters of `urn:uuid:` has a
non-ASCII case variant, so the comparison is byte-wise up to ASCII case. -/
def equalFoldURN (head : List Nat) : Bool :=
  head.map lower = [117, 114, 110, 58, 117, 117, 105, 100, 58]

/-- The tail of `Parse`, for a string that is now 36 bytes (or 37, in the braced form):
hyphens at 8, 13, 18 and 23, hexadecimal digit pairs elsewhere. -/
def parseHyphenated (s : List Nat) : Except uuid.Error UUID :=
  if byteAt s 8 ≠ 45 ∨ byteAt s 13 ≠ 45 ∨ byteAt s 18 ≠ 45 ∨ byteAt s 23 ≠ 45 then .error .invalidFormat
  else
    match decodeAt s [0, 2, 4, 6, 9, 11, 14, 16, 19, 21, 24, 26, 28, 30, 32, 34] with
    | .error e => .error e
    | .ok u => .ok ⟨u⟩

/-- `uuid.Parse`.  Four encodings are accepted: the hyphenated form (36 bytes), the same
after `urn:uuid:` (45 bytes), the same with one byte before and one after (38 bytes, of
which only the middle 36 are examined), and 32 hexadecimal digits. -/
def Parse (s : String) : Except uuid.Error UUID :=
  let b := bytes s
  if b.length = 36 then parseHyphenated b
  else if b.length = 36 + 9 then
    if !equalFoldURN (b.take 9) then .error (.invalidURN (b.take 9))
    else parseHyphenated (b.drop 9)
  else if b.length = 36 + 2 then parseHyphenated (b.drop 1)
  else if b.length = 32 then
    match decodeAt b [0, 2, 4, 6, 8, 10, 12, 14, 16, 18, 20, 22, 24, 26, 28, 30] with
    | .error e => .error e
    | .ok u => .ok ⟨u⟩
  else .error (.invalidLength b.length)

/-- `UUID.String`: the form `xxxxxxxx-xxxx-xxxx-xxxx-xxxxxxxxxxxx`, lower case. -/
def UUID.String (u : UUID) : String :=
  hex.EncodeToString (u.data.take 4) ++ "-" ++ hex.EncodeToString ((u.data.drop 4).take 2)
    ++ "-" ++ hex.EncodeToString ((u.data.drop 6).take 2)
    ++ "-" ++ hex.EncodeToString ((u.data.drop 8).take 2)
    ++ "-" ++ hex.EncodeToString (u.data.drop 10)

end uuid

/-! ## `context`, `codes`, `status` -/

namespace context

/-- A context, reduced to its deadline: the time left at the moment of the call, in
nanoseconds (`none`: no deadline). -/
structure Context where
  deadline : Option Int
  deriving DecidableEq, Repr

/-- `context.WithTimeout`: the derived deadline is the earlier of the parent's and the
timeout. -/
def WithTimeout (parent : Context) (timeout : Int) : Context :=
  match parent.deadline with
  | none => ⟨some timeout⟩
  | some d => ⟨some (min d timeout)⟩

end context

namespace codes

/-- The status codes of `google.golang.org/grpc/codes`. -/
inductive Code where
  | OK | Canceled | Unknown | InvalidArgument | DeadlineExceeded | NotFound | AlreadyExists
  | PermissionDenied | ResourceExhausted | FailedPrecondition | Aborted | OutOfRange
  | Unimplemented | Internal | Unavailable | DataLoss | Unauthenticated
  deriving DecidableEq, Repr

/-- `Code.String`. -/
def Code.String : Code → String
  | .OK => "OK" | .Canceled => "Canceled" | .Unknown => "Unknown"
  | .InvalidArgument => "InvalidArgument" | .DeadlineExceeded => "DeadlineExceeded"
  | .NotFound => "NotFound" | .AlreadyExists => "AlreadyExists"
  | .PermissionDenied => "PermissionDenied" | .ResourceExhausted => "ResourceExhausted"
  | .FailedPrecondition => "FailedPrecondition" | .Aborted => "Aborted"
  | .OutOfRange => "OutOfRange" | .Unimplemented => "Unimplemented"
  | .Internal => "Internal" | .Unavailable => "Unavailable" | .DataLoss => "DataLoss"
  | .Unauthenticated => "Unauthenticated"

end codes

namespace status

/-- An RPC failure: a status code and a message. -/
structure Status where
  code : codes.Code
  message : String
  deriving DecidableEq, Repr

/-- `status.Errorf(c, format, err)` for a format that is a fixed text followed by `%v`:
the message is that text followed by the error's text. -/
def Errorf (c : codes.Code) (text : String) (err : String) : Status :=
  ⟨c, text ++ err⟩

/-- The `Error()` text of a status error. -/
def Status.Error (s : Status) : String :=
  "rpc error: code = " ++ s.code.String ++ " desc = " ++ s.message

end status

/-- What a handler did: the calls it made on its collaborator, in order, and what it
returned. -/
structure Outcome (κ ε α : Type) where
  calls : List κ
  result : Except ε α
  deriving DecidableEq

/-! ## Messages (`pkg/pb`) and records (`internal/database`)

The generated message types and the database types are declared outside the four source
files; the structures below carry the fields the handlers read and write. -/

namespace pb

structure Empty where
  deriving DecidableEq, Repr

structure Link where
  Id : String
  Url : String
  Title : String
  Tags : Slice String
  Images : Slice String
  UserId : String
  deriving DecidableEq, Repr

structure CreateLinkRequest where
  Url : String
  Title : String
  Tags : Slice String
  Images : Slice String
  UserId : String
  deriving DecidableEq, Repr

structure GetLinkRequest where
  Id : String
  deriving DecidableEq, Repr

structure UpdateLinkRequest where
  Id : String
  Url : String
  Title : String
  Tags : Slice String
  Images : Slice String
  UserId : String
  deriving DecidableEq, Repr

structure DeleteLinkRequest where
  Id : String
  deriving DecidableEq, Repr

structure GetLinksByUserId where
  UserId : String
  deriving DecidableEq, Repr

structure ListLinkResponse where
  Links : Slice Link
  deriving DecidableEq, Repr

structure User where
  Id : String
  Username : String
  Password : String
  deriving DecidableEq, Repr

structure CreateUserRequest where
  Username : String
  Password : String
  deriving DecidableEq, Repr

structure GetUserRequest where
  Id : String
  deriving DecidableEq, Repr

structure UpdateUserRequest where
  Id : String
  Username : String
  Password : String
  deriving DecidableEq, Repr

structure DeleteUserRequest where
  Id : String
  deriving DecidableEq, Repr

structure ListUsersResponse where
  Users : Slice User
  deriving DecidableEq, Repr

end pb

namespace database

structure Link where
  ID : primitive.ObjectID
  URL : String
  Title : String
  Tags : Slice String
  Images : Slice String
  UserID : String
  deriving DecidableEq, Repr

structure CreateLinkReq where
  ID : primitive.ObjectID
  URL : String
  Title : String
  Tags : Slice String
  Images : Slice String
  UserID : String
  deriving DecidableEq, Repr

structure UpdateLinkReq where
  ID : primitive.ObjectID
  URL : String
  Title : String
  Tags : Slice String
  Images : Slice String
  UserID : String
  deriving DecidableEq, Repr

structure User where
  ID : uuid.UUID
  Username : String
  Password : String
  deriving DecidableEq, Repr

/-- A composite literal that omits `ID` leaves it at the zero value `uuid.Nil`. -/
structure CreateUserReq where
  ID : uuid.UUID := uuid.Nil
  Username : String
  Password : String
  deriving DecidableEq, Repr

end database

/-! ## The Link RPC handler (`internal/link/linkgrpc/handler.go`) -/

namespace linkgrpc

open context (Context)

/-- The repository port of the Link handler.  Each operation is a function of the derived
context and its arguments: whatever the repository does at the moment of the call.  A Go
result pair `(value, error)` is an `Except`, the error being its text. -/
structure linksRepository where
  Create : Context → database.CreateLinkReq → Except String database.Link
  FindByID : Context → primitive.ObjectID → Except String database.Link
  FindAll : Context → Except String (Slice database.Link)
  FindByUserID : Context → String → Except String (Slice database.Link)
  Update : Context → database.UpdateLinkReq → Except String database.Link
  Delete : Context → primitive.ObjectID → Except String Unit

/-- A call on the Link repository, with its arguments. -/
inductive Call where
  | Create (ctx : Context) (req : database.CreateLinkReq)
  | FindByID (ctx : Context) (id : primitive.ObjectID)
  | FindAll (ctx : Context)
  | FindByUserID (ctx : Context) (userID : String)
  | Update (ctx : Context) (req : database.UpdateLinkReq)
  | Delete (ctx : Context) (id : primitive.ObjectID)
  deriving DecidableEq, Repr

structure Handler where
  linksRepository : linksRepository
  timeout : Int

/-- The result of an RPC operation of the Link handler. -/
abbrev Result (α : Type) := Outcome Call status.Status α

def Handler.GetLinkByUserID (h : Handler) (ctx : Context) (req : pb.GetLinksByUserId) :
    Result pb.ListLinkResponse :=
  let ctx := context.WithTimeout ctx h.timeout
  match h.linksRepository.FindByUserID ctx req.UserId with
  | .error err =>
    ⟨[.FindByUserID ctx req.UserId],
      .error (status.Errorf .Internal "failed to find links by user ID: " err)⟩
  | .ok links =>
    let response : pb.ListLinkResponse := { Links := .null }
    let response := links.toList.foldl (fun (response : pb.ListLinkResponse) link =>
      { response with Links := response.Links.append {
          Id := link.ID.Hex
          Url := link.URL
          Title := link.Title
          Tags := link.Tags
          Images := link.Images
          UserId := link.UserID } }) response
    ⟨[.FindByUserID ctx req.UserId], .ok response⟩

/-- `CreateLink`; `linkID` is the identifier `primitive.NewObjectID()` mints in this call. -/
def Handler.CreateLink (h : Handler) (linkID : primitive.ObjectID) (ctx : Context)
    (req : pb.CreateLinkRequest) : Result pb.Empty :=
  let ctx := context.WithTimeout ctx h.timeout
  let newLink : database.CreateLinkReq := {
    ID := linkID
    URL := req.Url
    Title := req.Title
    Tags := req.Tags
    Images := req.Images
    UserID := req.UserId }
  match h.linksRepository.Create ctx newLink with
  | .error err => ⟨[.Create ctx newLink], .error (status.Errorf .Internal "failed to create link: " err)⟩
  | .ok _ => ⟨[.Create ctx newLink], .ok {}⟩

def Handler.GetLink (h : Handler) (ctx : Context) (req : pb.GetLinkRequest) : Result pb.Link :=
  let ctx := context.WithTimeout ctx h.timeout
  match primitive.ObjectIDFromHex req.Id with
  | .error err => ⟨[], .error (status.Errorf .InvalidArgument "invalid link ID: " err.Error)⟩
  | .ok id =>
    match h.linksRepository.FindByID ctx id with
    | .error err => ⟨[.FindByID ctx id], .error (status.Errorf .Internal "failed to get link: " err)⟩
    | .ok link =>
      ⟨[.FindByID ctx id], .ok {
        Id := link.ID.Hex
        Url := link.URL
        Title := link.Title
        Tags := link.Tags
        Images := link.Images
        UserId := link.UserID }⟩

def Handler.UpdateLink (h : Handler) (ctx : Context) (req : pb.UpdateLinkRequest) :
    Result pb.Empty :=
  let ctx := context.WithTimeout ctx h.timeout
  match primitive.ObjectIDFromHex req.Id with
  | .error err => ⟨[], .error (status.Errorf .InvalidArgument "invalid link ID: " err.Error)⟩
  | .ok id =>
    let updateReq : database.UpdateLinkReq := {
      ID := id
      URL := req.Url
      Title := req.Title
      Tags := req.Tags
      Images := req.Images
      UserID := req.UserId }
    match h.linksRepository.Update ctx updateReq with
    | .error err =>
      ⟨[.Update ctx updateReq], .error (status.Errorf .Internal "failed to update link: " err)⟩
    | .ok _ => ⟨[.Update ctx updateReq], .ok {}⟩

def Handler.DeleteLink (h : Handler) (ctx : Context) (req : pb.DeleteLinkRequest) :
    Result pb.Empty :=
  let ctx := context.WithTimeout ctx h.timeout
  match primitive.ObjectIDFromHex req.Id with
  | .error err => ⟨[], .error (status.Errorf .InvalidArgument "invalid link ID: " err.Error)⟩
  | .ok id =>
    match h.linksRepository.Delete ctx id with
    | .error err => ⟨[.Delete ctx id], .error (status.Errorf .Internal "failed to delete link: " err)⟩
    | .ok _ => ⟨[.Delete ctx id], .ok {}⟩

def Handler.ListLinks (h : Handler) (ctx : Context) (_req : pb.Empty) :
    Result pb.ListLinkResponse :=
  let ctx := context.WithTimeout ctx h.timeout
  match h.linksRepository.FindAll ctx with
  | .error err => ⟨[.FindAll ctx], .error (status.Errorf .Internal "failed to list links: " err)⟩
  | .ok links =>
    let response : pb.ListLinkResponse := { Links := .null }
    let response := links.toList.foldl (fun (response : pb.ListLinkResponse) link =>
      { response with Links := response.Links.append {
          Id := link.ID.Hex
          Url := link.URL
          Title := link.Title
          Tags := link.Tags
          Images := link.Images
          UserId := link.UserID } }) response
    ⟨[.FindAll ctx], .ok response⟩

end linkgrpc

/-! ## The User RPC handler (`internal/user/usergrpc/handler.go`) -/

namespace usergrpc

open context (Context)

/-- The repository port of the User handler. -/
structure usersRepository where
  Create : Context → database.CreateUserReq → Except String database.User
  FindByID : Context → uuid.UUID → Except String database.User
  FindAll : Context → Except String (Slice database.User)
  DeleteByUserID : Context → uuid.UUID → Except String Unit

/-- A call on the User repository, with its arguments. -/
inductive Call where
  | Create (ctx : Context) (req : database.CreateUserReq)
  | FindByID (ctx : Context) (id : uuid.UUID)
  | FindAll (ctx : Context)
  | DeleteByUserID (ctx : Context) (id : uuid.UUID)
  deriving DecidableEq, Repr

structure Handler where
  usersRepository : usersRepository
  timeout : Int

/-- The result of an RPC operation of the User handler. -/
abbrev Result (α : Type) := Outcome Call status.Status α

section
/- The rendering of the verb `%q`, which the text of one `uuid.Parse` error uses. -/
variable (quote : List Nat → String)

def Handler.CreateUser (h : Handler) (ctx : Context) (req : pb.CreateUserRequest) :
    Result pb.Empty :=
  let ctx := context.WithTimeout ctx h.timeout
  let newUser : database.CreateUserReq := {
    Username := req.Username
    Password := req.Password }
  match h.usersRepository.Create ctx newUser with
  | .error err => ⟨[.Create ctx newUser], .error (status.Errorf .Internal "failed to create user: " err)⟩
  | .ok _ => ⟨[.Create ctx newUser], .ok {}⟩

def Handler.GetUser (h : Handler) (ctx : Context) (req : pb.GetUserRequest) : Result pb.User :=
  let ctx := context.WithTimeout ctx h.timeout
  match uuid.Parse req.Id with
  | .error err =>
    ⟨[], .error (status.Errorf .InvalidArgument "invalid user ID: " (err.Error quote))⟩
  | .ok userID =>
    match h.usersRepository.FindByID ctx userID with
    | .error err => ⟨[.FindByID ctx userID], .error (status.Errorf .Internal "failed to get user: " err)⟩
    | .ok user =>
      ⟨[.FindByID ctx userID], .ok {
        Id := user.ID.String
        Username := user.Username
        Password := user.Password }⟩

def Handler.UpdateUser (h : Handler) (ctx : Context) (req : pb.UpdateUserRequest) :
    Result pb.Empty :=
  let ctx := context.WithTimeout ctx h.timeout
  match uuid.Parse req.Id with
  | .error err =>
    ⟨[], .error (status.Errorf .InvalidArgument "invalid user ID: " (err.Error quote))⟩
  | .ok userID =>
    let updateReq : database.CreateUserReq := {
      ID := userID
      Username := req.Username
      Password := req.Password }
    match h.usersRepository.Create ctx updateReq with
    | .error err =>
      ⟨[.Create ctx updateReq], .error (status.Errorf .Internal "failed to update user: " err)⟩
    | .ok _ => ⟨[.Create ctx updateReq], .ok {}⟩

def Handler.DeleteUser (h : Handler) (ctx : Context) (req : pb.DeleteUserRequest) :
    Result pb.Empty :=
  let ctx := context.WithTimeout ctx h.timeout
  match uuid.Parse req.Id with
  | .error err =>
    ⟨[], .error (status.Errorf .InvalidArgument "invalid user ID: " (err.Error quote))⟩
  | .ok userID =>
    match h.usersRepository.DeleteByUserID ctx userID with
    | .error err =>
      ⟨[.DeleteByUserID ctx userID], .error (status.Errorf .Internal "failed to delete user: " err)⟩
    | .ok _ => ⟨[.DeleteByUserID ctx userID], .ok {}⟩

def Handler.ListUsers (h : Handler) (ctx : Context) (_req : pb.Empty) :
    Result pb.ListUsersResponse :=
  let ctx := context.WithTimeout ctx h.timeout
  match h.usersRepository.FindAll ctx with
  | .error err => ⟨[.FindAll ctx], .error (status.Errorf .Internal "failed to list users: " err)⟩
  | .ok users =>
    let response : pb.ListUsersResponse := { Users := .null }
    let response := users.toList.foldl (fun (response : pb.ListUsersResponse) user =>
      { response with Users := response.Users.append {
          Id := user.ID.String
          Username := user.Username
          Password := user.Password } }) response
    ⟨[.FindAll ctx], .ok response⟩

end

end usergrpc

/-! ## Wire forms of the identifiers, as the specification words them -/

/-- A hexadecimal character: `0-9`, `a-f` or `A-F`. -/
def IsHexChar (c : Char) : Prop :=
  (48 ≤ c.toNat ∧ c.toNat ≤ 57) ∨ (97 ≤ c.toNat ∧ c.toNat ≤ 102) ∨ (65 ≤ c.toNat ∧ c.toNat ≤ 70)

instance (c : Char) : Decidable (IsHexChar c) := by unfold IsHexChar; infer_instance

/-- The wire form of a Link identifier: exactly 24 hexadecimal characters. -/
def IsHex24 (s : String) : Prop := s.length = 24 ∧ ∀ c ∈ s.data, IsHexChar c

instance (s : String) : Decidable (IsHex24 s) := by unfold IsHex24; infer_instance

/-! ## Sample collaborators -/

/-- A Link repository that holds no records: lookups by identifier fail, listings are
empty, writes succeed. -/
def emptyLinksRepository : linkgrpc.linksRepository where
  Create := fun _ req => .ok ⟨req.ID, req.URL, req.Title, req.Tags, req.Images, req.UserID⟩
  FindByID := fun _ _ => .error "mongo: no documents in result"
  FindAll := fun _ => .ok (.mk [])
  FindByUserID := fun _ _ => .ok (.mk [])
  Update := fun _ _ => .error "mongo: no documents in result"
  Delete := fun _ _ => .ok ()

/-- A Link handler over the empty repository, with a five second timeout. -/
def emptyLinkHandler : linkgrpc.Handler := ⟨emptyLinksRepository, 5000000000⟩

/-- A context without deadline (`context.Background()`). -/
def background : context.Context := ⟨none⟩

/-- A hexadecimal digit, as a byte. -/
def IsHexByte (b : Nat) : Prop :=
  (48 ≤ b ∧ b ≤ 57) ∨ (97 ≤ b ∧ b ≤ 102) ∨ (65 ≤ b ∧ b ≤ 70)

instance (b : Nat) : Decidable (IsHexByte b) := by unfold IsHexByte; infer_instance

/-- The wire form of a User identifier: 36 characters, hyphens at positions 8, 13, 18 and
23, hexadecimal characters elsewhere (`xxxxxxxx-xxxx-xxxx-xxxx-xxxxxxxxxxxx`). -/
def IsUUIDForm (s : String) : Prop :=
  s.length = 36 ∧ ∀ i, i < 36 →
    if i = 8 ∨ i = 13 ∨ i = 18 ∨ i = 23 then s.data.getD i ' ' = '-'
    else IsHexChar (s.data.getD i ' ')

instance (s : String) : Decidable (IsUUIDForm s) := by unfold IsUUIDForm; infer_instance

/-- The first 36 bytes are a hyphenated UUID: hyphens at 8, 13, 18 and 23, hexadecimal
digits elsewhere. -/
def IsHyphenated (b : List Nat) : Prop :=
  ∀ i, i < 36 →
    if i = 8 ∨ i = 13 ∨ i = 18 ∨ i = 23 then uuid.byteAt b i = 45
    else IsHexByte (uuid.byteAt b i)

instance (b : List Nat) : Decidable (IsHyphenated b) := by unfold IsHyphenated; infer_instance

/-- The four encodings of a UUID: the hyphenated form; the hyphenated form after
`urn:uuid:` in any letter case; the hyphenated form with one byte before and one byte
after it; 32 hexadecimal digits. -/
def IsUUIDEncoding (s : String) : Prop :=
  ((bytes s).length = 36 ∧ IsHyphenated (bytes s)) ∨
  ((bytes s).length = 45 ∧ ((bytes s).take 9).map uuid.lower = bytes "urn:uuid:" ∧
    IsHyphenated ((bytes s).drop 9)) ∨
  ((bytes s).length = 38 ∧ IsHyphenated ((bytes s).drop 1)) ∨
  ((bytes s).length = 32 ∧ ∀ i, i < 32 → IsHexByte (uuid.byteAt (bytes s) i))

instance (s : String) : Decidable (IsUUIDEncoding s) := by unfold IsUUIDEncoding; infer_instance

/-- A User repository that holds no records. -/
def emptyUsersRepository : usergrpc.usersRepository where
  Create := fun _ req => .ok ⟨req.ID, req.Username, req.Password⟩
  FindByID := fun _ _ => .error "sql: no rows in result set"
  FindAll := fun _ => .ok (.mk [])
  DeleteByUserID := fun _ _ => .ok ()

/-- A User handler over the empty repository, with a five second timeout. -/
def emptyUserHandler : usergrpc.Handler := ⟨emptyUsersRepository, 5000000000⟩

/-- A stand-in for the verb `%q` that renders the raw bytes between double quotes; the
sample inputs never reach the one error text that uses it. -/
def rawQuote (b : List Nat) : String :=
  "\"" ++ String.mk (b.map Char.ofNat) ++ "\""

/-- The text `sub` occurs in the text `msg`. -/
def Contains (msg sub : String) : Prop := sub.data <:+: msg.data

instance (msg sub : String) : Decidable (Contains msg sub) := by unfold Contains; infer_instance

/-- The wire shape of a Link record: the identifier rendered as hexadecimal, the other
fields copied. -/
def wireLink (l : database.Link) : pb.Link where
  Id := l.ID.Hex
  Url := l.URL
  Title := l.Title
  Tags := l.Tags
  Images := l.Images
  UserId := l.UserID

/-- The wire shape of a User record: the identifier rendered as a UUID string, the other
fields copied. -/
def wireUser (u : database.User) : pb.User where
  Id := u.ID.String
  Username := u.Username
  Password := u.Password

/-- The error text the Link repository answers a call with, if it answers with an error. -/
def linkgrpc.linksRepository.failure (repo : linkgrpc.linksRepository) :
    linkgrpc.Call → Option String
  | .Create ctx req => match repo.Create ctx req with | .error e => some e | .ok _ => none
  | .FindByID ctx id => match repo.FindByID ctx id with | .error e => some e | .ok _ => none
  | .FindAll ctx => match repo.FindAll ctx with | .error e => some e | .ok _ => none
  | .FindByUserID ctx u => match repo.FindByUserID ctx u with | .error e => some e | .ok _ => none
  | .Update ctx req => match repo.Update ctx req with | .error e => some e | .ok _ => none
  | .Delete ctx id => match repo.Delete ctx id with | .error e => some e | .ok _ => none

/-- The error text the User repository answers a call with, if it answers with an error. -/
def usergrpc.usersRepository.failure (repo : usergrpc.usersRepository) :
    usergrpc.Call → Option String
  | .Create ctx req => match repo.Create ctx req with | .error e => some e | .ok _ => none
  | .FindByID ctx id => match repo.FindByID ctx id with | .error e => some e | .ok _ => none
  | .FindAll ctx => match repo.FindAll ctx with | .error e => some e | .ok _ => none
  | .DeleteByUserID ctx id =>
    match repo.DeleteByUserID ctx id with | .error e => some e | .ok _ => none

/-- The two failure kinds of one RPC operation, as the specification words them.  `failure`
tells what the repository answers to a call and `parseFailed` whether identifier parsing
failed (`False` for an operation that parses nothing).
* The status is `Internal` exactly when one repository call was made and answered with an
  error, and the message then ends with the cause.
* The status is `InvalidArgument` exactly when parsing failed, and then no call was made.
* There is no other failure, and at most one repository call. -/
def FailureKinds {κ α : Type} (failure : κ → Option String) (parseFailed : Prop)
    (r : Outcome κ status.Status α) : Prop :=
  ((∃ msg, r.result = .error ⟨.Internal, msg⟩) ↔
    ∃ c cause, r.calls = [c] ∧ failure c = some cause) ∧
  (∀ msg c cause, r.result = .error ⟨.Internal, msg⟩ → r.calls = [c] → failure c = some cause →
    ∃ text, msg = text ++ cause) ∧
  ((∃ msg, r.result = .error ⟨.InvalidArgument, msg⟩) ↔ parseFailed) ∧
  (parseFailed → r.calls = []) ∧
  (∀ s, r.result = .error s → s.code = .Internal ∨ s.code = .InvalidArgument) ∧
  r.calls.length ≤ 1

/-- Two Link records of one owner. -/
def sampleLinks : List database.Link :=
  [⟨⟨[101, 66, 28, 22, 208, 122, 75, 58, 156, 31, 42, 1]⟩, "https://go.dev", "Go",
      .mk ["lang"], .null, "6ba7b810-9dad-11d1-80b4-00c04fd430c8"⟩,
   ⟨⟨[101, 66, 28, 22, 208, 122, 75, 58, 156, 31, 42, 2]⟩, "https://lean-lang.org", "Lean",
      .mk ["lang", "prover"], .mk [], "6ba7b810-9dad-11d1-80b4-00c04fd430c8"⟩]

/-- A Link repository holding `sampleLinks`. -/
def sampleLinksRepository : linkgrpc.linksRepository where
  Create := fun _ req => .ok ⟨req.ID, req.URL, req.Title, req.Tags, req.Images, req.UserID⟩
  FindByID := fun _ id =>
    match sampleLinks.find? (fun l => l.ID = id) with
    | some l => .ok l
    | none => .error "mongo: no documents in result"
  FindAll := fun _ => .ok (.mk sampleLinks)
  FindByUserID := fun _ u => .ok (.mk (sampleLinks.filter (fun l => l.UserID = u)))
  Update := fun _ req => .ok ⟨req.ID, req.URL, req.Title, req.Tags, req.Images, req.UserID⟩
  Delete := fun _ _ => .ok ()

/-- A Link handler over the sample repository. -/
def sampleLinkHandler : linkgrpc.Handler := ⟨sampleLinksRepository, 5000000000⟩

/-- Two User records. -/
def sampleUsers : List database.User :=
  [⟨⟨[107, 167, 184, 16, 157, 173, 17, 209, 128, 180, 0, 192, 79, 212, 48, 200]⟩, "alice", "p"⟩,
   ⟨⟨[107, 167, 184, 17, 157, 173, 17, 209, 128, 180, 0, 192, 79, 212, 48, 200]⟩, "bob", "q"⟩]

/-- A User repository holding `sampleUsers`. -/
def sampleUsersRepository : usergrpc.usersRepository where
  Create := fun _ req => .ok ⟨req.ID, req.Username, req.Password⟩
  FindByID := fun _ id =>
    match sampleUsers.find? (fun u => u.ID = id) with
    | some u => .ok u
    | none => .error "sql: no rows in result set"
  FindAll := fun _ => .ok (.mk sampleUsers)
  DeleteByUserID := fun _ _ => .ok ()

/-- A User handler over the sample repository. -/
def sampleUserHandler : usergrpc.Handler := ⟨sampleUsersRepository, 5000000000⟩

/-! ## `encoding/json`: the scanner and the stream decoder -/

namespace strconv

/-- `strconv.Quote(string(c))` without its outer quotes, for a byte `c` other than the
double quote: the character itself when printable, an escape otherwise. -/
def quotedByte (c : Nat) : String :=
  if c = 92 then "\\\\"
  else if fmt.isPrintLatin1 c then String.mk [Char.ofNat c]
  else if c = 7 then "\\a"
  else if c = 8 then "\\b"
  else if c = 12 then "\\f"
  else if c = 10 then "\\n"
  else if c = 13 then "\\r"
  else if c = 9 then "\\t"
  else if c = 11 then "\\v"
  else if c < 32 ∨ c = 127 then
    "\\x" ++ String.mk [fmt.ldigit (c / 16 % 16), fmt.ldigit (c % 16)]
  else "\\u00" ++ String.mk [fmt.ldigit (c / 16 % 16), fmt.ldigit (c % 16)]

end strconv

namespace json

/-- A `SyntaxError`: its message and the offset at which it was found. -/
structure SyntaxError where
  msg : String
  Offset : Nat
  deriving DecidableEq, Repr

/-- The errors `Decoder.Decode` returns. -/
inductive Error where
  | EOF
  | ErrUnexpectedEOF
  | invalid (e : SyntaxError)
  | UnmarshalTypeError (Value : String) (typ : String)
  | other (text : String)
  deriving DecidableEq, Repr

/-- The text of a decoding error. -/
def Error.Error : json.Error → String
  | .EOF => "EOF"
  | .ErrUnexpectedEOF => "unexpected EOF"
  | .invalid e => e.msg
  | .UnmarshalTypeError v t => "json: cannot unmarshal " ++ v ++ " into Go value of type " ++ t
  | .other text => text

/-- The results of a scanner step (`scanContinue` ... `scanError`). -/
inductive Op where
  | scanContinue | scanBeginLiteral | scanBeginObject | scanObjectKey | scanObjectValue
  | scanEndObject | scanBeginArray | scanArrayValue | scanEndArray | scanSkipSpace
  | scanEnd | scanError
  deriving DecidableEq, Repr

/-- What the scanner is in the middle of (`parseObjectKey` ...). -/
inductive ParseState where
  | parseObjectKey | parseObjectValue | parseArrayValue
  deriving DecidableEq, Repr

/-- The step functions of the scanner (`stateBeginValue` ...). -/
inductive State where
  | stateBeginValue | stateBeginValueOrEmpty | stateBeginStringOrEmpty | stateBeginString
  | stateEndValue | stateEndTop
  | stateInString | stateInStringEsc | stateInStringEscU | stateInStringEscU1
  | stateInStringEscU12 | stateInStringEscU123
  | stateNeg | state1 | state0 | stateDot | stateDot0 | stateE | stateESign | stateE0
  | stateT | stateTr | stateTru | stateF | stateFa | stateFal | stateFals
  | stateN | stateNu | stateNul
  | stateError
  deriving DecidableEq, Repr

/-- The scanner.  `parseState` is a stack whose top is the head of the list. -/
structure scanner where
  step : State
  endTop : Bool
  parseState : List ParseState
  err : Option SyntaxError
  bytes : Nat
  deriving DecidableEq, Repr

def maxNestingDepth : Nat := 10000

/-- `scanner.reset` (the byte count starts at zero in a new decoder). -/
def scanner.reset : scanner := ⟨.stateBeginValue, false, [], none, 0⟩

def isSpace (c : Nat) : Bool := c = 32 ∨ c = 9 ∨ c = 13 ∨ c = 10

/-- `quoteChar`: the byte in single quotes, as the syntax error messages show it. -/
def quoteChar (c : Nat) : String :=
  if c = 39 then "'\\''"
  else if c = 34 then "'\"'"
  else "'" ++ strconv.quotedByte c ++ "'"

/-- `scanner.error`: records a syntax error and stops the scanner. -/
def scanner.error (s : scanner) (c : Nat) (context : String) : scanner × Op :=
  ({ s with step := .stateError,
            err := some ⟨"invalid character " ++ quoteChar c ++ " " ++ context, s.bytes⟩ },
    .scanError)

def scanner.pushParseState (s : scanner) (c : Nat) (newParseState : ParseState)
    (successState : Op) : scanner × Op :=
  let s := { s with parseState := newParseState :: s.parseState }
  if s.parseState.length ≤ maxNestingDepth then (s, successState)
  else s.error c "exceeded max depth"

def scanner.popParseState (s : scanner) : scanner :=
  let s := { s with parseState := s.parseState.tail }
  if s.parseState.length = 0 then { s with step := .stateEndTop, endTop := true }
  else { s with step := .stateEndValue }

def isDigit (c : Nat) : Bool := 48 ≤ c ∧ c ≤ 57

def isHexDigit (c : Nat) : Bool :=
  (48 ≤ c ∧ c ≤ 57) ∨ (97 ≤ c ∧ c ≤ 102) ∨ (65 ≤ c ∧ c ≤ 70)

/-- `stateEndTop`: after the top-level value only space may follow; the value has ended
before this byte either way. -/
def stateEndTop (s : scanner) (c : Nat) : scanner × Op :=
  if !isSpace c then ((s.error c "after top-level value").1, .scanEnd)
  else (s, .scanEnd)

/-- `stateEndValue`: after a value, such as after a close quote or a literal. -/
def stateEndValue (s : scanner) (c : Nat) : scanner × Op :=
  match s.parseState with
  | [] => stateEndTop { s with step := .stateEndTop, endTop := true } c
  | ps :: rest =>
    if isSpace c then ({ s with step := .stateEndValue }, .scanSkipSpace)
    else
      match ps with
      | .parseObjectKey =>
        if c = 58 then
          ({ s with parseState := .parseObjectValue :: rest, step := .stateBeginValue },
            .scanObjectKey)
        else s.error c "after object key"
      | .parseObjectValue =>
        if c = 44 then
          ({ s with parseState := .parseObjectKey :: rest, step := .stateBeginString },
            .scanObjectValue)
        else if c = 125 then (s.popParseState, .scanEndObject)
        else s.error c "after object key:value pair"
      | .parseArrayValue =>
        if c = 44 then ({ s with step := .stateBeginValue }, .scanArrayValue)
        else if c = 93 then (s.popParseState, .scanEndArray)
        else s.error c "after array element"

/-- `stateBeginValue`: the beginning of a value. -/
def stateBeginValue (s : scanner) (c : Nat) : scanner × Op :=
  if isSpace c then (s, .scanSkipSpace)
  else if c = 123 then
    { s with step := .stateBeginStringOrEmpty }.pushParseState c .parseObjectKey .scanBeginObject
  else if c = 91 then
    { s with step := .stateBeginValueOrEmpty }.pushParseState c .parseArrayValue .scanBeginArray
  else if c = 34 then ({ s with step := .stateInString }, .scanBeginLiteral)
  else if c = 45 then ({ s with step := .stateNeg }, .scanBeginLiteral)
  else if c = 48 then ({ s with step := .state0 }, .scanBeginLiteral)
  else if c = 116 then ({ s with step := .stateT }, .scanBeginLiteral)
  else if c = 102 then ({ s with step := .stateF }, .scanBeginLiteral)
  else if c = 110 then ({ s with step := .stateN }, .scanBeginLiteral)
  else if 49 ≤ c ∧ c ≤ 57 then ({ s with step := .state1 }, .scanBeginLiteral)
  else s.error c "looking for beginning of value"

/-- `stateBeginString`: the beginning of an object key. -/
def stateBeginString (s : scanner) (c : Nat) : scanner × Op :=
  if isSpace c then (s, .scanSkipSpace)
  else if c = 34 then ({ s with step := .stateInString }, .scanBeginLiteral)
  else s.error c "looking for beginning of object key string"

/-- `state0`: after a leading zero or a digit run. -/
def state0 (s : scanner) (c : Nat) : scanner × Op :=
  if c = 46 then ({ s with step := .stateDot }, .scanContinue)
  else if c = 101 ∨ c = 69 then ({ s with step := .stateE }, .scanContinue)
  else stateEndValue s c

/-- `stateESign`: after the sign of an exponent. -/
def stateESign (s : scanner) (c : Nat) : scanner × Op :=
  if isDigit c then ({ s with step := .stateE0 }, .scanContinue)
  else s.error c "in exponent of numeric literal"

/-- A state inside one of the literals `true`, `false`, `null`. -/
def literalStep (s : scanner) (c : Nat) (expected : Nat) (next : State) (context : String) :
    scanner × Op :=
  if c = expected then ({ s with step := next }, .scanContinue)
  else s.error c context

/-- A state inside the four hexadecimal digits of a `\u` escape. -/
def escapeStep (s : scanner) (c : Nat) (next : State) : scanner × Op :=
  if isHexDigit c then ({ s with step := next }, .scanContinue)
  else s.error c "in \\u hexadecimal character escape"

/-- One scanner step: `s.step(s, c)`. -/
def scanner.next (s : scanner) (c : Nat) : scanner × Op :=
  match s.step with
  | .stateBeginValue => stateBeginValue s c
  | .stateBeginValueOrEmpty =>
    if isSpace c then (s, .scanSkipSpace)
    else if c = 93 then stateEndValue s c
    else stateBeginValue s c
  | .stateBeginStringOrEmpty =>
    if isSpace c then (s, .scanSkipSpace)
    else if c = 125 then
      stateEndValue { s with parseState := .parseObjectValue :: s.parseState.tail } c
    else stateBeginString s c
  | .stateBeginString => stateBeginString s c
  | .stateEndValue => stateEndValue s c
  | .stateEndTop => stateEndTop s c
  | .stateInString =>
    if c = 34 then ({ s with step := .stateEndValue }, .scanContinue)
    else if c = 92 then ({ s with step := .stateInStringEsc }, .scanContinue)
    else if c < 32 then s.error c "in string literal"
    else (s, .scanContinue)
  | .stateInStringEsc =>
    if c = 98 ∨ c = 102 ∨ c = 110 ∨ c = 114 ∨ c = 116 ∨ c = 92 ∨ c = 47 ∨ c = 34 then
      ({ s with step := .stateInString }, .scanContinue)
    else if c = 117 then ({ s with step := .stateInStringEscU }, .scanContinue)
    else s.error c "in string escape code"
  | .stateInStringEscU => escapeStep s c .stateInStringEscU1
  | .stateInStringEscU1 => escapeStep s c .stateInStringEscU12
  | .stateInStringEscU12 => escapeStep s c .stateInStringEscU123
  | .stateInStringEscU123 => escapeStep s c .stateInString
  | .stateNeg =>
    if c = 48 then ({ s with step := .state0 }, .scanContinue)
    else if 49 ≤ c ∧ c ≤ 57 then ({ s with step := .state1 }, .scanContinue)
    else s.error c "in numeric literal"
  | .state1 =>
    if isDigit c then ({ s with step := .state1 }, .scanContinue)
    else state0 s c
  | .state0 => state0 s c
  | .stateDot =>
    if isDigit c then ({ s with step := .stateDot0 }, .scanContinue)
    else s.error c "after decimal point in numeric literal"
  | .stateDot0 =>
    if isDigit c then (s, .scanContinue)
    else if c = 101 ∨ c = 69 then ({ s with step := .stateE }, .scanContinue)
    else stateEndValue s c
  | .stateE =>
    if c = 43 ∨ c = 45 then ({ s with step := .stateESign }, .scanContinue)
    else stateESign s c
  | .stateESign => stateESign s c
  | .stateE0 =>
    if isDigit c then (s, .scanContinue)
    else stateEndValue s c
  | .stateT => literalStep s c 114 .stateTr "in literal true (expecting 'r')"
  | .stateTr => literalStep s c 117 .stateTru "in literal true (expecting 'u')"
  | .stateTru => literalStep s c 101 .stateEndValue "in literal true (expecting 'e')"
  | .stateF => literalStep s c 97 .stateFa "in literal false (expecting 'a')"
  | .stateFa => literalStep s c 108 .stateFal "in literal false (expecting 'l')"
  | .stateFal => literalStep s c 115 .stateFals "in literal false (expecting 's')"
  | .stateFals => literalStep s c 101 .stateEndValue "in literal false (expecting 'e')"
  | .stateN => literalStep s c 117 .stateNu "in literal null (expecting 'u')"
  | .stateNu => literalStep s c 108 .stateNul "in literal null (expecting 'l')"
  | .stateNul => literalStep s c 108 .stateEndValue "in literal null (expecting 'l')"
  | .stateError => (s, .scanError)

/-- `nonSpace`: whether some byte is not JSON space. -/
def nonSpace (b : List Nat) : Bool := b.any (fun c => !isSpace c)

/-- The loop of `Decoder.readValue` over the bytes not yet scanned: `n` bytes have been
scanned, `all` is the whole input.  The result is the length of the first value. -/
def readValueLoop (all : List Nat) : scanner → Nat → List Nat → Except json.Error Nat
  | s, n, c :: rest =>
    match { s with bytes := s.bytes + 1 }.next c with
    | (_, .scanEnd) => .ok n
    | (s, .scanEndObject) | (s, .scanEndArray) =>
      if (stateEndValue s 32).2 = .scanEnd then .ok (n + 1)
      else readValueLoop all (stateEndValue s 32).1 (n + 1) rest
    | (s, .scanError) =>
      match s.err with
      | some e => .error (.invalid e)
      | none => .error (.other "")
    | (s, _) => readValueLoop all s (n + 1) rest
  | s, n, [] =>
    if (s.next 32).2 = .scanEnd then .ok n
    else if nonSpace all then .error .ErrUnexpectedEOF
    else .error .EOF

/-- `Decoder.readValue` on a new decoder whose reader delivers `body` and then ends: the
length of the first JSON value of the stream, leading space included. -/
def readValue (body : List Nat) : Except json.Error Nat :=
  readValueLoop body scanner.reset 0 body

/-- `decodeState.unmarshal` into a pointer to a struct of type `typeName` (a plain struct,
without an `UnmarshalJSON` method), given the bytes of one complete JSON value: `null` has
no effect, an object is decoded field by field by `object`, and any other value is a type
error.  `object` depends on the fields of the
struct, which are declared with the message types; it returns the struct as far as it was
filled and the first error saved on the way. -/
def unmarshal {α : Type} (typeName : String) (object : List Nat → α → α × Option json.Error)
    (value : List Nat) (v : α) : α × Option json.Error :=
  match value.dropWhile (fun c => isSpace c) with
  | [] => (v, some (.other "unexpected end of JSON input"))
  | c :: _ =>
    if c = 123 then object value v
    else if c = 91 then (v, some (.UnmarshalTypeError "array" typeName))
    else if c = 110 then (v, none)
    else if c = 34 then (v, some (.UnmarshalTypeError "string" typeName))
    else if c = 116 ∨ c = 102 then (v, some (.UnmarshalTypeError "bool" typeName))
    else (v, some (.UnmarshalTypeError "number" typeName))

/-- `json.NewDecoder(body).Decode(&v)`: reads the first JSON value of the stream and
unmarshals it into `v`; whatever follows that value is left unread. -/
def Decode {α : Type} (typeName : String) (object : List Nat → α → α × Option json.Error)
    (body : List Nat) (v : α) : α × Option json.Error :=
  match readValue body with
  | .error e => (v, some e)
  | .ok n => unmarshal typeName object (body.take n) v

/-- `json.Marshal` of a slice: `null` for the nil slice, otherwise the elements between
brackets. -/
def marshalSlice {α : Type} (elem : α → String) : Slice α → String
  | .null => "null"
  | .mk xs => "[" ++ ",".intercalate (xs.map elem) ++ "]"

end json

namespace json

/-- `scanner.eof`: whether the input may end here. -/
def scanner.eof (s : scanner) : Op :=
  if s.err.isSome then .scanError
  else if s.endTop then .scanEnd
  else if (s.next 32).1.endTop then .scanEnd
  else .scanError

/-- The loop of `checkValid`. -/
def checkValid : scanner → List Nat → Bool
  | s, c :: rest =>
    match { s with bytes := s.bytes + 1 }.next c with
    | (_, .scanError) => false
    | (s, _) => checkValid s rest
  | s, [] => s.eof ≠ .scanError

/-- `json.Valid`: whether the data is, as a whole, one syntactically valid JSON text. -/
def Valid (data : List Nat) : Bool := checkValid scanner.reset data

end json

/-! ## `net/http`: the response writer -/

namespace time

/-- `time.Second`, in nanoseconds. -/
def Second : Int := 1000000000

end time

namespace http

def StatusOK : Nat := 200
def StatusCreated : Nat := 201
def StatusNoContent : Nat := 204
def StatusBadRequest : Nat := 400
def StatusInternalServerError : Nat := 500

/-- The state of a response.  `header` is the header map the handler edits, `sent` the
headers as they stood when the status line was written, `failure` the error with which
every write fails when the connection is broken. -/
structure ResponseWriter where
  header : List (String × String)
  sent : List (String × String)
  wroteHeader : Bool
  status : Nat
  body : String
  failure : Option String
  deriving DecidableEq, Repr

/-- A response to which nothing has been written, over a working connection. -/
def NewResponse (header : List (String × String)) : ResponseWriter :=
  ⟨header, [], false, 0, "", none⟩

/-- `w.Header().Set(key, value)`. -/
def ResponseWriter.Set (w : ResponseWriter) (key value : String) : ResponseWriter :=
  { w with header := (key, value) :: w.header.filter (fun kv => kv.1 ≠ key) }

/-- `w.WriteHeader(code)`: only the first call has an effect. -/
def ResponseWriter.WriteHeader (w : ResponseWriter) (code : Nat) : ResponseWriter :=
  if w.wroteHeader then w
  else { w with wroteHeader := true, status := code, sent := w.header }

/-- `w.Write(data)`: writes the status line with 200 if it was not written yet, then the
data. -/
def ResponseWriter.Write (w : ResponseWriter) (data : String) :
    ResponseWriter × Option String :=
  let w := if !w.wroteHeader then w.WriteHeader StatusOK else w
  match w.failure with
  | some err => (w, some err)
  | none => ({ w with body := w.body ++ data }, none)

/-- The status code the client receives. -/
def ResponseWriter.Code (w : ResponseWriter) : Nat :=
  if w.wroteHeader then w.status else StatusOK

/-- `http.Error`: a plain text reply with the given code, the text followed by a newline. -/
def Error (w : ResponseWriter) (error : String) (code : Nat) : ResponseWriter :=
  let w := w.Set "Content-Type" "text/plain; charset=utf-8"
  let w := w.Set "X-Content-Type-Options" "nosniff"
  let w := w.WriteHeader code
  (w.Write (error ++ "\n")).1

/-- An incoming request: its context and its body, read to the end. -/
structure Request where
  ctx : context.Context
  Body : List Nat
  deriving DecidableEq, Repr

end http

namespace json

/-- `json.NewEncoder(w).Encode(v)`, given the JSON text of `v`: the text and a newline are
written to `w`. -/
def Encode (w : http.ResponseWriter) (text : String) : http.ResponseWriter × Option String :=
  w.Write (text ++ "\n")

end json

/-! ## The gateway (`internal/apigw/v1`) -/

namespace pb

/-- How `encoding/json` reads and writes the message types.  It is fixed by the field
declarations and struct tags of the generated messages, which are outside the four
source files: `marshal*` is the JSON text of a message, `object*` the decoding of a JSON
object into a request (the request as far as it was filled, and the first error saved). -/
structure JSON where
  marshalLink : pb.Link → String
  marshalUser : pb.User → String
  objectCreateLinkRequest : List Nat → pb.CreateLinkRequest → pb.CreateLinkRequest × Option json.Error
  objectUpdateLinkRequest : List Nat → pb.UpdateLinkRequest → pb.UpdateLinkRequest × Option json.Error
  objectCreateUserRequest : List Nat → pb.CreateUserRequest → pb.CreateUserRequest × Option json.Error
  objectUpdateUserRequest : List Nat → pb.UpdateUserRequest → pb.UpdateUserRequest × Option json.Error

end pb

namespace v1

open context (Context)

/-- The RPC client of the Link service, as the gateway uses it.  A call returns a response
or a status error. -/
structure linksClient where
  ListLinks : Context → pb.Empty → Except status.Status pb.ListLinkResponse
  CreateLink : Context → pb.CreateLinkRequest → Except status.Status pb.Empty
  DeleteLink : Context → pb.DeleteLinkRequest → Except status.Status pb.Empty
  GetLink : Context → pb.GetLinkRequest → Except status.Status pb.Link
  UpdateLink : Context → pb.UpdateLinkRequest → Except status.Status pb.Empty
  GetLinkByUserID : Context → pb.GetLinksByUserId → Except status.Status pb.ListLinkResponse

/-- A call on the Link client, with its arguments. -/
inductive LinksCall where
  | ListLinks (ctx : Context) (req : pb.Empty)
  | CreateLink (ctx : Context) (req : pb.CreateLinkRequest)
  | DeleteLink (ctx : Context) (req : pb.DeleteLinkRequest)
  | GetLink (ctx : Context) (req : pb.GetLinkRequest)
  | UpdateLink (ctx : Context) (req : pb.UpdateLinkRequest)
  | GetLinkByUserID (ctx : Context) (req : pb.GetLinksByUserId)
  deriving DecidableEq, Repr

/-- The RPC client of the User service, as the gateway uses it. -/
structure usersClient where
  ListUsers : Context → pb.Empty → Except status.Status pb.ListUsersResponse
  CreateUser : Context → pb.CreateUserRequest → Except status.Status pb.Empty
  DeleteUser : Context → pb.DeleteUserRequest → Except status.Status pb.Empty
  GetUser : Context → pb.GetUserRequest → Except status.Status pb.User
  UpdateUser : Context → pb.UpdateUserRequest → Except status.Status pb.Empty

/-- A call on the User client, with its arguments. -/
inductive UsersCall where
  | ListUsers (ctx : Context) (req : pb.Empty)
  | CreateUser (ctx : Context) (req : pb.CreateUserRequest)
  | DeleteUser (ctx : Context) (req : pb.DeleteUserRequest)
  | GetUser (ctx : Context) (req : pb.GetUserRequest)
  | UpdateUser (ctx : Context) (req : pb.UpdateUserRequest)
  deriving DecidableEq, Repr

structure linksHandler where
  client : linksClient

structure usersHandler where
  client : usersClient

structure Handler where
  linksHandler : linksHandler
  usersHandler : usersHandler

/-- What a gateway operation did: the response it wrote and the RPC calls it made. -/
structure Exchange (κ : Type) where
  w : http.ResponseWriter
  calls : List κ
  deriving DecidableEq

/-! ### `links.go` -/

def linksHandler.GetLinks (j : pb.JSON) (h : linksHandler) (w : http.ResponseWriter)
    (r : http.Request) : Exchange LinksCall :=
  let ctx := context.WithTimeout r.ctx (time.Second * 10)
  match h.client.ListLinks ctx {} with
  | .error err => ⟨http.Error w err.Error http.StatusInternalServerError, [.ListLinks ctx {}]⟩
  | .ok resp =>
    let w := w.Set "Content-Type" "application/json"
    match json.Encode w (json.marshalSlice j.marshalLink resp.Links) with
    | (w, some err) => ⟨http.Error w err http.StatusInternalServerError, [.ListLinks ctx {}]⟩
    | (w, none) => ⟨w, [.ListLinks ctx {}]⟩

def linksHandler.PostLinks (j : pb.JSON) (h : linksHandler) (w : http.ResponseWriter)
    (r : http.Request) : Exchange LinksCall :=
  let req : pb.CreateLinkRequest := ⟨"", "", .null, .null, ""⟩
  match json.Decode "pb.CreateLinkRequest" j.objectCreateLinkRequest r.Body req with
  | (_, some err) => ⟨http.Error w err.Error http.StatusBadRequest, []⟩
  | (req, none) =>
    let ctx := context.WithTimeout r.ctx (time.Second * 10)
    match h.client.CreateLink ctx req with
    | .error err =>
      ⟨http.Error w err.Error http.StatusInternalServerError, [.CreateLink ctx req]⟩
    | .ok _ => ⟨w.WriteHeader http.StatusCreated, [.CreateLink ctx req]⟩

def linksHandler.DeleteLinksId (h : linksHandler) (w : http.ResponseWriter)
    (r : http.Request) (id : String) : Exchange LinksCall :=
  let ctx := context.WithTimeout r.ctx (time.Second * 10)
  match h.client.DeleteLink ctx { Id := id } with
  | .error err =>
    ⟨http.Error w err.Error http.StatusInternalServerError, [.DeleteLink ctx { Id := id }]⟩
  | .ok _ => ⟨w.WriteHeader http.StatusNoContent, [.DeleteLink ctx { Id := id }]⟩

def Handler.GetLinksId (j : pb.JSON) (h : Handler) (w : http.ResponseWriter)
    (r : http.Request) (id : String) : Exchange LinksCall :=
  let ctx := context.WithTimeout r.ctx (time.Second * 10)
  match h.linksHandler.client.GetLink ctx { Id := id } with
  | .error err =>
    ⟨http.Error w err.Error http.StatusInternalServerError, [.GetLink ctx { Id := id }]⟩
  | .ok resp =>
    let w := w.Set "Content-Type" "application/json"
    match json.Encode w (j.marshalLink resp) with
    | (w, some err) =>
      ⟨http.Error w err http.StatusInternalServerError, [.GetLink ctx { Id := id }]⟩
    | (w, none) => ⟨w, [.GetLink ctx { Id := id }]⟩

def linksHandler.PutLinksId (j : pb.JSON) (h : linksHandler) (w : http.ResponseWriter)
    (r : http.Request) (id : String) : Exchange LinksCall :=
  let req : pb.UpdateLinkRequest := ⟨"", "", "", .null, .null, ""⟩
  match json.Decode "pb.UpdateLinkRequest" j.objectUpdateLinkRequest r.Body req with
  | (_, some err) => ⟨http.Error w err.Error http.StatusBadRequest, []⟩
  | (req, none) =>
    let req := { req with Id := id }
    let ctx := context.WithTimeout r.ctx (time.Second * 10)
    match h.client.UpdateLink ctx req with
    | .error err =>
      ⟨http.Error w err.Error http.StatusInternalServerError, [.UpdateLink ctx req]⟩
    | .ok _ => ⟨w.WriteHeader http.StatusNoContent, [.UpdateLink ctx req]⟩

def linksHandler.GetLinksUserUserID (j : pb.JSON) (h : linksHandler) (w : http.ResponseWriter)
    (r : http.Request) (userID : String) : Exchange LinksCall :=
  let ctx := context.WithTimeout r.ctx (time.Second * 10)
  match h.client.GetLinkByUserID ctx { UserId := userID } with
  | .error err =>
    ⟨http.Error w err.Error http.StatusInternalServerError,
      [.GetLinkByUserID ctx { UserId := userID }]⟩
  | .ok resp =>
    let w := w.Set "Content-Type" "application/json"
    match json.Encode w (json.marshalSlice j.marshalLink resp.Links) with
    | (w, some err) =>
      ⟨http.Error w err http.StatusInternalServerError,
        [.GetLinkByUserID ctx { UserId := userID }]⟩
    | (w, none) => ⟨w, [.GetLinkByUserID ctx { UserId := userID }]⟩

/-! ### `users.go` -/

def usersHandler.GetUsers (j : pb.JSON) (h : usersHandler) (w : http.ResponseWriter)
    (r : http.Request) : Exchange UsersCall :=
  let ctx := context.WithTimeout r.ctx (time.Second * 10)
  match h.client.ListUsers ctx {} with
  | .error err => ⟨http.Error w err.Error http.StatusInternalServerError, [.ListUsers ctx {}]⟩
  | .ok resp =>
    let w := w.Set "Content-Type" "application/json"
    match json.Encode w (json.marshalSlice j.marshalUser resp.Users) with
    | (w, some err) => ⟨http.Error w err http.StatusInternalServerError, [.ListUsers ctx {}]⟩
    | (w, none) => ⟨w, [.ListUsers ctx {}]⟩

def usersHandler.PostUsers (j : pb.JSON) (h : usersHandler) (w : http.ResponseWriter)
    (r : http.Request) : Exchange UsersCall :=
  let req : pb.CreateUserRequest := ⟨"", ""⟩
  match json.Decode "pb.CreateUserRequest" j.objectCreateUserRequest r.Body req with
  | (_, some err) => ⟨http.Error w err.Error http.StatusBadRequest, []⟩
  | (req, none) =>
    let ctx := context.WithTimeout r.ctx (time.Second * 10)
    match h.client.CreateUser ctx req with
    | .error err =>
      ⟨http.Error w err.Error http.StatusInternalServerError, [.CreateUser ctx req]⟩
    | .ok _ => ⟨w.WriteHeader http.StatusCreated, [.CreateUser ctx req]⟩

def usersHandler.DeleteUsersId (h : usersHandler) (w : http.ResponseWriter)
    (r : http.Request) (id : String) : Exchange UsersCall :=
  let ctx := context.WithTimeout r.ctx (time.Second * 10)
  match h.client.DeleteUser ctx { Id := id } with
  | .error err =>
    ⟨http.Error w err.Error http.StatusInternalServerError, [.DeleteUser ctx { Id := id }]⟩
  | .ok _ => ⟨w.WriteHeader http.StatusNoContent, [.DeleteUser ctx { Id := id }]⟩

def usersHandler.GetUsersId (j : pb.JSON) (h : usersHandler) (w : http.ResponseWriter)
    (r : http.Request) (id : String) : Exchange UsersCall :=
  let ctx := context.WithTimeout r.ctx (time.Second * 10)
  match h.client.GetUser ctx { Id := id } with
  | .error err =>
    ⟨http.Error w err.Error http.StatusInternalServerError, [.GetUser ctx { Id := id }]⟩
  | .ok resp =>
    let w := w.Set "Content-Type" "application/json"
    match json.Encode w (j.marshalUser resp) with
    | (w, some err) =>
      ⟨http.Error w err http.StatusInternalServerError, [.GetUser ctx { Id := id }]⟩
    | (w, none) => ⟨w, [.GetUser ctx { Id := id }]⟩

def usersHandler.PutUsersId (j : pb.JSON) (h : usersHandler) (w : http.ResponseWriter)
    (r : http.Request) (id : String) : Exchange UsersCall :=
  let req : pb.UpdateUserRequest := ⟨"", "", ""⟩
  match json.Decode "pb.UpdateUserRequest" j.objectUpdateUserRequest r.Body req with
  | (_, some err) => ⟨http.Error w err.Error http.StatusBadRequest, []⟩
  | (req, none) =>
    let req := { req with Id := id }
    let ctx := context.WithTimeout r.ctx (time.Second * 10)
    match h.client.UpdateUser ctx req with
    | .error err =>
      ⟨http.Error w err.Error http.StatusInternalServerError, [.UpdateUser ctx req]⟩
    | .ok _ => ⟨w.WriteHeader http.StatusNoContent, [.UpdateUser ctx req]⟩

end v1

/-! ## The two tiers connected -/

/-- A repeated field after transmission: an empty sequence arrives as the nil slice. -/
def Slice.transmit {α : Type} : Slice α → Slice α
  | .null => .null
  | .mk [] => .null
  | .mk (x :: xs) => .mk (x :: xs)

/-- The elements of a slice, each mapped. -/
def Slice.map {α β : Type} (f : α → β) : Slice α → Slice β
  | .null => .null
  | .mk xs => .mk (xs.map f)

namespace pb

def Link.transmit (l : Link) : Link :=
  { l with Tags := l.Tags.transmit, Images := l.Images.transmit }

def ListLinkResponse.transmit (r : ListLinkResponse) : ListLinkResponse :=
  ⟨(r.Links.map Link.transmit).transmit⟩

def ListUsersResponse.transmit (r : ListUsersResponse) : ListUsersResponse :=
  ⟨r.Users.transmit⟩

def CreateLinkRequest.transmit (r : CreateLinkRequest) : CreateLinkRequest :=
  { r with Tags := r.Tags.transmit, Images := r.Images.transmit }

def UpdateLinkRequest.transmit (r : UpdateLinkRequest) : UpdateLinkRequest :=
  { r with Tags := r.Tags.transmit, Images := r.Images.transmit }

end pb

/-- The RPC client connected to a Link handler: requests and responses cross the wire, the
deadline travels with the call, a failure arrives as its status.  `linkID` is the
identifier the handler mints if the call is `CreateLink`. -/
def linkgrpc.Handler.client (h : linkgrpc.Handler) (linkID : primitive.ObjectID) :
    v1.linksClient where
  ListLinks := fun ctx req => (h.ListLinks ctx req).result.map pb.ListLinkResponse.transmit
  CreateLink := fun ctx req => (h.CreateLink linkID ctx req.transmit).result
  DeleteLink := fun ctx req => (h.DeleteLink ctx req).result
  GetLink := fun ctx req => (h.GetLink ctx req).result.map pb.Link.transmit
  UpdateLink := fun ctx req => (h.UpdateLink ctx req.transmit).result
  GetLinkByUserID := fun ctx req =>
    (h.GetLinkByUserID ctx req).result.map pb.ListLinkResponse.transmit

/-- The repository calls a Link handler makes to serve one call of its client. -/
def linkgrpc.Handler.serve (h : linkgrpc.Handler) (linkID : primitive.ObjectID) :
    v1.LinksCall → List linkgrpc.Call
  | .ListLinks ctx req => (h.ListLinks ctx req).calls
  | .CreateLink ctx req => (h.CreateLink linkID ctx req.transmit).calls
  | .DeleteLink ctx req => (h.DeleteLink ctx req).calls
  | .GetLink ctx req => (h.GetLink ctx req).calls
  | .UpdateLink ctx req => (h.UpdateLink ctx req.transmit).calls
  | .GetLinkByUserID ctx req => (h.GetLinkByUserID ctx req).calls

/-- The RPC client connected to a User handler. -/
def usergrpc.Handler.client (quote : List Nat → String) (h : usergrpc.Handler) :
    v1.usersClient where
  ListUsers := fun ctx req => (h.ListUsers ctx req).result.map pb.ListUsersResponse.transmit
  CreateUser := fun ctx req => (h.CreateUser ctx req).result
  DeleteUser := fun ctx req => (h.DeleteUser quote ctx req).result
  GetUser := fun ctx req => (h.GetUser quote ctx req).result
  UpdateUser := fun ctx req => (h.UpdateUser quote ctx req).result

/-- The repository calls a User handler makes to serve one call of its client. -/
def usergrpc.Handler.serve (quote : List Nat → String) (h : usergrpc.Handler) :
    v1.UsersCall → List usergrpc.Call
  | .ListUsers ctx req => (h.ListUsers ctx req).calls
  | .CreateUser ctx req => (h.CreateUser ctx req).calls
  | .DeleteUser ctx req => (h.DeleteUser quote ctx req).calls
  | .GetUser ctx req => (h.GetUser quote ctx req).calls
  | .UpdateUser ctx req => (h.UpdateUser quote ctx req).calls

/-- The reply the specification gives for the outcome `res` of the RPC call: 500 with the
error text (and the newline `http.Error` ends it with) exactly when the call failed,
whatever the status code of the failure; otherwise the success status of the operation,
with an empty body when `emptyBody` is set. -/
def ReplyFollows {α : Type} (res : Except status.Status α) (success : Nat) (emptyBody : Bool)
    (w : http.ResponseWriter) : Prop :=
  (w.Code = 500 ↔ ∃ e, res = .error e) ∧
  (∀ code msg, res = .error ⟨code, msg⟩ →
    w.body = "rpc error: code = " ++ code.String ++ " desc = " ++ msg ++ "\n") ∧
  (∀ v, res = .ok v → w.Code = success ∧ (emptyBody = true → w.body = ""))

/-- A codec for the sample requests: links and users are written with their identifier
only; the object decoder of the Link update request knows the one sample body, which
carries an `id` and a `url`, and the other object decoders skip every member. -/
def sampleJSON : pb.JSON where
  marshalLink := fun l => "\x7b\"id\":\"" ++ l.Id ++ "\"\x7d"
  marshalUser := fun u => "\x7b\"id\":\"" ++ u.Id ++ "\"\x7d"
  objectCreateLinkRequest := fun _ v => (v, none)
  objectUpdateLinkRequest := fun value v =>
    if value = bytes "\x7b\"id\":\"65421c16d07a4b3a9c1f2a02\",\"url\":\"https://go.dev\"\x7d" then
      ({ v with Id := "65421c16d07a4b3a9c1f2a02", Url := "https://go.dev" }, none)
    else (v, none)
  objectCreateUserRequest := fun _ v => (v, none)
  objectUpdateUserRequest := fun _ v => (v, none)

/-- The identifier minted in the sample `CreateLink` calls. -/
def sampleLinkID : primitive.ObjectID := ⟨[101, 66, 28, 22, 208, 122, 75, 58, 156, 31, 42, 3]⟩

/-- The response of a read that succeeded: the JSON content type in the header as sent,
status 200 and the given body. -/
def jsonReply (header : List (String × String)) (body : String) : http.ResponseWriter :=
  ⟨("Content-Type", "application/json") :: header.filter (fun kv => kv.1 ≠ "Content-Type"),
    ("Content-Type", "application/json") :: header.filter (fun kv => kv.1 ≠ "Content-Type"),
    true, 200, body, none⟩

namespace json

/-- The scanner is inside the first value of the input: no error was recorded, the
top-level value has not ended, and the states that follow an opening bracket have that
bracket on the stack. -/
def scanner.Running (s : scanner) : Prop :=
  s.err = none ∧ s.endTop = false ∧ s.step ≠ .stateEndTop ∧ s.step ≠ .stateError ∧
  (s.step = .stateBeginValueOrEmpty → s.parseState ≠ []) ∧
  (s.step = .stateBeginStringOrEmpty → s.parseState ≠ [])

/-- The first byte of a text that is not space. -/
def firstByte (text : List Nat) : Option Nat := (text.dropWhile (fun c => isSpace c)).head?

end json

/-- A text that by itself decodes into a request message: it is syntactically valid JSON,
and its value is `null` (the one value that starts with `n`) or an object that the object
decoder of the message accepts. -/
def DecodesAlone {α : Type} (object : List Nat → α → α × Option json.Error) (zero : α)
    (text : List Nat) : Prop :=
  json.Valid text = true ∧
    (json.firstByte text = some 110 ∨
      (json.firstByte text = some 123 ∧ (object text zero).2 = none))

instance {α : Type} (object : List Nat → α → α × Option json.Error) (zero : α)
    (text : List Nat) : Decidable (DecodesAlone object zero text) := by
  unfold DecodesAlone; infer_instance

/-- What a scanner step leaves behind, unless it ends the value or fails: after a closing
bracket either the top-level value is complete or the scanner is inside the enclosing
value, and after any other byte the scanner is still inside the first value. -/
def json.StepKept (r : json.scanner × json.Op) : Prop :=
  (r.2 = .scanEndObject ∨ r.2 = .scanEndArray →
    r.1.err = none ∧
    ((r.1.parseState = [] ∧ r.1.endTop = true) ∨
      (r.1.parseState ≠ [] ∧ r.1.Running ∧ r.1.step = .stateEndValue))) ∧
  (r.2 ≠ .scanEnd → r.2 ≠ .scanError → r.2 ≠ .scanEndObject → r.2 ≠ .scanEndArray →
    r.1.Running)

/-! # Properties -/

/-! ## The identifier parsers -/

theorem reverseHexTable_le_iff (b : Nat) :
    hex.reverseHexTable b ≤ 15 ↔
      (48 ≤ b ∧ b ≤ 57) ∨ (97 ≤ b ∧ b ≤ 102) ∨ (65 ≤ b ∧ b ≤ 70) := by
  unfold hex.reverseHexTable
  split_ifs <;> omega

theorem hex_Decode_ok_iff : ∀ bs : List Nat,
    (∃ out, hex.Decode bs = .ok out) ↔
      (bs.length % 2 = 0 ∧ ∀ b ∈ bs, hex.reverseHexTable b ≤ 15)
  | [] => by simp [hex.Decode]
  | [p] => by
    simp only [hex.Decode]
    constructor
    · rintro ⟨_, h⟩
      split_ifs at h
    · rintro ⟨h, _⟩
      simp at h
  | p :: q :: rest => by
    have ih := hex_Decode_ok_iff rest
    simp only [hex.Decode]
    by_cases ha : hex.reverseHexTable p > 15
    · rw [if_pos ha]
      constructor
      · rintro ⟨_, h⟩; cases h
      · rintro ⟨_, h⟩
        have := h p (by simp)
        omega
    · rw [if_neg ha]
      by_cases hb : hex.reverseHexTable q > 15
      · rw [if_pos hb]
        constructor
        · rintro ⟨_, h⟩; cases h
        · rintro ⟨_, h⟩
          have := h q (by simp)
          omega
      · rw [if_neg hb]
        cases he : hex.Decode rest with
        | error e =>
          simp only [he] at ih
          constructor
          · rintro ⟨_, h⟩; cases h
          · rintro ⟨hl, h⟩
            obtain ⟨_, h1⟩ := ih.mpr ⟨by simp at hl; omega, fun b hb => h b (by simp [hb])⟩
            cases h1
        | ok out =>
          have h1 := ih.mp ⟨out, he⟩
          constructor
          · intro _
            refine ⟨by simp; omega, ?_⟩
            intro x hx
            simp only [List.mem_cons] at hx
            rcases hx with rfl | rfl | hx
            · omega
            · omega
            · exact h1.2 x hx
          · intro _
            exact ⟨_, rfl⟩

theorem utf8Bytes_of_lt (c : Char) (h : c.toNat < 128) : utf8Bytes c = [c.toNat] := by
  simp [utf8Bytes, h]

theorem utf8Bytes_lt (c : Char) (h : ∀ b ∈ utf8Bytes c, b < 128) : c.toNat < 128 := by
  by_contra hc
  unfold utf8Bytes at h
  simp only at h
  split_ifs at h <;>
    first
    | omega
    | (have hb := h _ (List.mem_cons_self _ _); omega)

theorem bytesOfChars_of_ascii : ∀ cs : List Char, (∀ c ∈ cs, c.toNat < 128) →
    bytesOfChars cs = cs.map Char.toNat
  | [], _ => rfl
  | c :: cs, h => by
    simp only [bytesOfChars, List.map_cons]
    rw [utf8Bytes_of_lt c (h c (by simp)), bytesOfChars_of_ascii cs (fun d hd => h d (by simp [hd]))]
    rfl

theorem ascii_of_bytesOfChars : ∀ cs : List Char, (∀ b ∈ bytesOfChars cs, b < 128) →
    ∀ c ∈ cs, c.toNat < 128
  | [], _ => by simp
  | c :: cs, h => by
    simp only [bytesOfChars, List.mem_append] at h
    intro d hd
    simp only [List.mem_cons] at hd
    rcases hd with rfl | hd
    · exact utf8Bytes_lt d (fun b hb => h b (Or.inl hb))
    · exact ascii_of_bytesOfChars cs (fun b hb => h b (Or.inr hb)) d hd

/-- `ObjectIDFromHex` succeeds exactly on the strings of 24 hexadecimal characters. -/
theorem ObjectIDFromHex_ok_iff (s : String) :
    (∃ id, primitive.ObjectIDFromHex s = .ok id) ↔ IsHex24 s := by
  unfold primitive.ObjectIDFromHex IsHex24
  constructor
  · rintro ⟨id, h⟩
    split_ifs at h with hl
    have hl : len s = 24 := by omega
    cases hd : hex.Decode (bytes s) with
    | error e => simp [hd] at h
    | ok out =>
      have hx := (hex_Decode_ok_iff (bytes s)).mp ⟨out, hd⟩
      have hb : ∀ b ∈ bytesOfChars s.data, b < 128 := by
        intro b hb
        have := (reverseHexTable_le_iff b).mp (hx.2 b hb)
        omega
      have hc := ascii_of_bytesOfChars s.data hb
      have he : bytes s = s.data.map Char.toNat := bytesOfChars_of_ascii s.data hc
      refine ⟨?_, ?_⟩
      · have : (bytes s).length = 24 := hl
        rw [he, List.length_map] at this
        exact this
      · intro c hc
        have := (reverseHexTable_le_iff c.toNat).mp
          (hx.2 c.toNat (by rw [he]; exact List.mem_map_of_mem _ hc))
        exact this
  · rintro ⟨hl, hc⟩
    have hasc : ∀ c ∈ s.data, c.toNat < 128 := by
      intro c h
      have := hc c h
      unfold IsHexChar at this
      omega
    have he : bytes s = s.data.map Char.toNat := bytesOfChars_of_ascii s.data hasc
    have hlen : len s = 24 := by
      unfold len
      rw [he, List.length_map]
      exact hl
    rw [if_neg (by omega)]
    have hd : ∃ out, hex.Decode (bytes s) = .ok out := by
      apply (hex_Decode_ok_iff (bytes s)).mpr
      refine ⟨by have : (bytes s).length = 24 := hlen; omega, ?_⟩
      intro b hb
      rw [he, List.mem_map] at hb
      obtain ⟨c, hcm, rfl⟩ := hb
      exact (reverseHexTable_le_iff c.toNat).mpr (hc c hcm)
    obtain ⟨out, hd⟩ := hd
    exact ⟨⟨out⟩, by rw [hd]⟩

/-- On anything else `ObjectIDFromHex` fails. -/
theorem ObjectIDFromHex_error_of_not_hex24 (s : String) (h : ¬ IsHex24 s) :
    ∃ e, primitive.ObjectIDFromHex s = .error e := by
  cases hp : primitive.ObjectIDFromHex s with
  | error e => exact ⟨e, rfl⟩
  | ok id => exact absurd ((ObjectIDFromHex_ok_iff s).mp ⟨id, hp⟩) h

/-! ## Identifier parsing in the Link RPC handler -/

/-- C1: when the request id is not exactly 24 hexadecimal characters, `GetLink`,
`UpdateLink` and `DeleteLink` each fail with code `InvalidArgument` and a message that
starts with `invalid link ID`, and the list of repository calls is empty; this holds for
every repository, context and timeout, and for every value of the other request fields. -/
theorem C1_invalid_link_id_rejected (h : linkgrpc.Handler) (ctx : context.Context)
    (id : String) (hid : ¬ IsHex24 id) :
    (∃ rest, h.GetLink ctx ⟨id⟩ =
      ⟨[], .error ⟨.InvalidArgument, "invalid link ID" ++ rest⟩⟩) ∧
    (∀ url title tags images userId, ∃ rest,
      h.UpdateLink ctx ⟨id, url, title, tags, images, userId⟩ =
        ⟨[], .error ⟨.InvalidArgument, "invalid link ID" ++ rest⟩⟩) ∧
    (∃ rest, h.DeleteLink ctx ⟨id⟩ =
      ⟨[], .error ⟨.InvalidArgument, "invalid link ID" ++ rest⟩⟩) := by
  obtain ⟨e, he⟩ := ObjectIDFromHex_error_of_not_hex24 id hid
  have hmsg : status.Errorf .InvalidArgument "invalid link ID: " e.Error =
      ⟨.InvalidArgument, "invalid link ID" ++ (": " ++ e.Error)⟩ := by
    simp only [status.Errorf, ← String.append_assoc]
    rfl
  refine ⟨⟨": " ++ e.Error, ?_⟩, fun _ _ _ _ _ => ⟨": " ++ e.Error, ?_⟩, ⟨": " ++ e.Error, ?_⟩⟩
  · simp only [linkgrpc.Handler.GetLink, he, hmsg]
  · simp only [linkgrpc.Handler.UpdateLink, he, hmsg]
  · simp only [linkgrpc.Handler.DeleteLink, he, hmsg]

/-- C1 at the identifier `not-a-valid-id`, over the empty repository. -/
theorem C1_invalid_link_id_rejected_witness :
    ¬ IsHex24 "not-a-valid-id" ∧
    (∃ rest, emptyLinkHandler.GetLink background ⟨"not-a-valid-id"⟩ =
      ⟨[], .error ⟨.InvalidArgument, "invalid link ID" ++ rest⟩⟩) :=
  ⟨by decide,
    (C1_invalid_link_id_rejected emptyLinkHandler background "not-a-valid-id" (by decide)).1⟩

/-! ## The UUID parser -/

theorem xvalues_ne_iff (c : Nat) : uuid.xvalues c ≠ 255 ↔ IsHexByte c := by
  unfold uuid.xvalues IsHexByte
  split_ifs <;> omega

theorem xtob_snd (x y : Nat) : (uuid.xtob x y).2 = true ↔ IsHexByte x ∧ IsHexByte y := by
  simp [uuid.xtob, xvalues_ne_iff]

theorem decodeAt_ok_iff (s : List Nat) : ∀ idx : List Nat,
    (∃ out, uuid.decodeAt s idx = .ok out) ↔
      ∀ x ∈ idx, IsHexByte (uuid.byteAt s x) ∧ IsHexByte (uuid.byteAt s (x + 1))
  | [] => by simp [uuid.decodeAt]
  | x :: xs => by
    have ih := decodeAt_ok_iff s xs
    have hx := xtob_snd (uuid.byteAt s x) (uuid.byteAt s (x + 1))
    simp only [uuid.decodeAt, List.mem_cons, forall_eq_or_imp]
    rcases hp : uuid.xtob (uuid.byteAt s x) (uuid.byteAt s (x + 1)) with ⟨v, ok⟩
    rw [hp] at hx
    cases ok with
    | false =>
      simp only [Bool.false_eq_true, false_iff] at hx
      constructor
      · rintro ⟨_, h⟩; cases h
      · rintro ⟨h, _⟩; exact absurd h hx
    | true =>
      have hx := hx.mp rfl
      cases hd : uuid.decodeAt s xs with
      | error e =>
        simp only [hd] at ih
        constructor
        · rintro ⟨_, h⟩; cases h
        · rintro ⟨_, h⟩
          obtain ⟨_, h1⟩ := ih.mpr h
          cases h1
      | ok out =>
        constructor
        · intro _
          exact ⟨hx, ih.mp ⟨out, hd⟩⟩
        · intro _
          exact ⟨_, rfl⟩

/-- The offsets of the digit pairs of the hyphenated form. -/
theorem hyphenated_cover : ∀ i, i < 36 →
    (i = 8 ∨ i = 13 ∨ i = 18 ∨ i = 23) ∨
    (¬ (i = 8 ∨ i = 13 ∨ i = 18 ∨ i = 23) ∧
      ∃ x ∈ [0, 2, 4, 6, 9, 11, 14, 16, 19, 21, 24, 26, 28, 30, 32, 34], i = x ∨ i = x + 1) := by
  decide

theorem hyphenated_offsets : ∀ x ∈ [0, 2, 4, 6, 9, 11, 14, 16, 19, 21, 24, 26, 28, 30, 32, 34],
    x + 1 < 36 ∧ ¬ (x = 8 ∨ x = 13 ∨ x = 18 ∨ x = 23) ∧
      ¬ (x + 1 = 8 ∨ x + 1 = 13 ∨ x + 1 = 18 ∨ x + 1 = 23) := by
  decide

theorem parseHyphenated_ok_iff (b : List Nat) :
    (∃ u, uuid.parseHyphenated b = .ok u) ↔ IsHyphenated b := by
  unfold uuid.parseHyphenated IsHyphenated
  have hd := decodeAt_ok_iff b [0, 2, 4, 6, 9, 11, 14, 16, 19, 21, 24, 26, 28, 30, 32, 34]
  constructor
  · rintro ⟨u, h⟩
    split_ifs at h with hh
    cases hdec : uuid.decodeAt b [0, 2, 4, 6, 9, 11, 14, 16, 19, 21, 24, 26, 28, 30, 32, 34] with
    | error e => simp [hdec] at h
    | ok out =>
      have hall := hd.mp ⟨out, hdec⟩
      intro i hi
      rcases hyphenated_cover i hi with hy | ⟨hn, x, hx, rfl | rfl⟩
      · rw [if_pos hy]
        rcases hy with rfl | rfl | rfl | rfl <;> omega
      · rw [if_neg hn]
        exact (hall _ hx).1
      · rw [if_neg hn]
        exact (hall _ hx).2
  · intro h
    have hh : ¬ (uuid.byteAt b 8 ≠ 45 ∨ uuid.byteAt b 13 ≠ 45 ∨ uuid.byteAt b 18 ≠ 45 ∨
        uuid.byteAt b 23 ≠ 45) := by
      have h8 := h 8 (by omega)
      have h13 := h 13 (by omega)
      have h18 := h 18 (by omega)
      have h23 := h 23 (by omega)
      simp at h8 h13 h18 h23
      omega
    rw [if_neg hh]
    have hok : ∃ out, uuid.decodeAt b
        [0, 2, 4, 6, 9, 11, 14, 16, 19, 21, 24, 26, 28, 30, 32, 34] = .ok out := by
      apply hd.mpr
      intro x hx
      obtain ⟨hlt, hn0, hn1⟩ := hyphenated_offsets x hx
      have h0 := h x (by omega)
      have h1 := h (x + 1) hlt
      rw [if_neg hn0] at h0
      rw [if_neg hn1] at h1
      exact ⟨h0, h1⟩
    obtain ⟨out, hok⟩ := hok
    exact ⟨⟨out⟩, by rw [hok]⟩

theorem raw_cover : ∀ i, i < 32 →
    ∃ x ∈ [0, 2, 4, 6, 8, 10, 12, 14, 16, 18, 20, 22, 24, 26, 28, 30], i = x ∨ i = x + 1 := by
  decide

theorem raw_offsets : ∀ x ∈ [0, 2, 4, 6, 8, 10, 12, 14, 16, 18, 20, 22, 24, 26, 28, 30],
    x < 32 ∧ x + 1 < 32 := by
  decide

theorem equalFoldURN_iff (head : List Nat) :
    uuid.equalFoldURN head = true ↔ head.map uuid.lower = bytes "urn:uuid:" := by
  have : bytes "urn:uuid:" = [117, 114, 110, 58, 117, 117, 105, 100, 58] := by decide
  rw [this]
  simp [uuid.equalFoldURN]

/-- `uuid.Parse` succeeds exactly on the four encodings. -/
theorem Parse_ok_iff (s : String) : (∃ u, uuid.Parse s = .ok u) ↔ IsUUIDEncoding s := by
  unfold uuid.Parse IsUUIDEncoding
  simp only
  by_cases h36 : (bytes s).length = 36
  · rw [if_pos h36, parseHyphenated_ok_iff]
    constructor
    · intro h; exact Or.inl ⟨h36, h⟩
    · rintro (⟨_, h⟩ | ⟨h, _⟩ | ⟨h, _⟩ | ⟨h, _⟩)
      · exact h
      all_goals omega
  rw [if_neg h36]
  by_cases h45 : (bytes s).length = 36 + 9
  · rw [if_pos h45]
    by_cases hf : uuid.equalFoldURN ((bytes s).take 9) = true
    · simp only [hf, Bool.not_true, Bool.false_eq_true, if_false]
      rw [parseHyphenated_ok_iff]
      constructor
      · intro h; exact Or.inr (Or.inl ⟨h45, (equalFoldURN_iff _).mp hf, h⟩)
      · rintro (⟨h, _⟩ | ⟨_, _, h⟩ | ⟨h, _⟩ | ⟨h, _⟩)
        · omega
        · exact h
        all_goals omega
    · have hf2 : uuid.equalFoldURN ((bytes s).take 9) = false := by simpa using hf
      simp only [hf2, Bool.not_false, if_true]
      constructor
      · rintro ⟨_, h⟩; cases h
      · rintro (⟨h, _⟩ | ⟨_, h, _⟩ | ⟨h, _⟩ | ⟨h, _⟩)
        · omega
        · exact absurd ((equalFoldURN_iff _).mpr h) hf
        all_goals omega
  rw [if_neg h45]
  by_cases h38 : (bytes s).length = 36 + 2
  · rw [if_pos h38, parseHyphenated_ok_iff]
    constructor
    · intro h; exact Or.inr (Or.inr (Or.inl ⟨h38, h⟩))
    · rintro (⟨h, _⟩ | ⟨h, _⟩ | ⟨_, h⟩ | ⟨h, _⟩)
      · omega
      · omega
      · exact h
      · omega
  rw [if_neg h38]
  by_cases h32 : (bytes s).length = 32
  · rw [if_pos h32]
    have hd := decodeAt_ok_iff (bytes s)
      [0, 2, 4, 6, 8, 10, 12, 14, 16, 18, 20, 22, 24, 26, 28, 30]
    constructor
    · rintro ⟨u, h⟩
      cases hdec : uuid.decodeAt (bytes s)
          [0, 2, 4, 6, 8, 10, 12, 14, 16, 18, 20, 22, 24, 26, 28, 30] with
      | error e => simp [hdec] at h
      | ok out =>
        have hall := hd.mp ⟨out, hdec⟩
        refine Or.inr (Or.inr (Or.inr ⟨h32, ?_⟩))
        intro i hi
        rcases raw_cover i hi with ⟨x, hx, rfl | rfl⟩
        · exact (hall _ hx).1
        · exact (hall _ hx).2
    · rintro (⟨h, _⟩ | ⟨h, _⟩ | ⟨h, _⟩ | ⟨_, h⟩)
      · omega
      · omega
      · omega
      · have hok : ∃ out, uuid.decodeAt (bytes s)
            [0, 2, 4, 6, 8, 10, 12, 14, 16, 18, 20, 22, 24, 26, 28, 30] = .ok out := by
          apply hd.mpr
          intro x hx
          obtain ⟨h0, h1⟩ := raw_offsets x hx
          exact ⟨h x h0, h (x + 1) h1⟩
        obtain ⟨out, hok⟩ := hok
        exact ⟨⟨out⟩, by rw [hok]⟩
  rw [if_neg h32]
  constructor
  · rintro ⟨_, h⟩; cases h
  · rintro (⟨h, _⟩ | ⟨h, _⟩ | ⟨h, _⟩ | ⟨h, _⟩) <;> omega

/-- On anything else `uuid.Parse` fails. -/
theorem Parse_error_of_not_encoding (s : String) (h : ¬ IsUUIDEncoding s) :
    ∃ e, uuid.Parse s = .error e := by
  cases hp : uuid.Parse s with
  | error e => exact ⟨e, rfl⟩
  | ok u => exact absurd ((Parse_ok_iff s).mp ⟨u, hp⟩) h

/-! ## Identifier parsing in the User RPC handler -/

/-- C2, as stated, fails at the identifier of 32 zeros: it is not in the hyphenated
8-4-4-4-12 form, yet `GetUser`, `UpdateUser` and `DeleteUser` parse it (to the nil UUID)
and call the repository. -/
theorem C2_counterexample :
    ¬ IsUUIDForm "00000000000000000000000000000000" ∧
    emptyUserHandler.GetUser rawQuote background ⟨"00000000000000000000000000000000"⟩ =
      ⟨[.FindByID ⟨some 5000000000⟩ uuid.Nil],
        .error ⟨.Internal, "failed to get user: sql: no rows in result set"⟩⟩ ∧
    emptyUserHandler.UpdateUser rawQuote background
        ⟨"00000000000000000000000000000000", "alice", "p"⟩ =
      ⟨[.Create ⟨some 5000000000⟩ ⟨uuid.Nil, "alice", "p"⟩], .ok {}⟩ ∧
    emptyUserHandler.DeleteUser rawQuote background ⟨"00000000000000000000000000000000"⟩ =
      ⟨[.DeleteByUserID ⟨some 5000000000⟩ uuid.Nil], .ok {}⟩ := by
  refine ⟨by decide, by decide, by decide, by decide⟩

/-- C2, amended: when the request id is none of the four encodings `uuid.Parse` accepts
(hyphenated; hyphenated after `urn:uuid:`; hyphenated between two extra bytes; 32
hexadecimal digits), `GetUser`, `UpdateUser` and `DeleteUser` each fail with code
`InvalidArgument` and the list of repository calls is empty. -/
theorem C2_unparsable_user_id_rejected (quote : List Nat → String) (h : usergrpc.Handler)
    (ctx : context.Context) (id : String) (hid : ¬ IsUUIDEncoding id) :
    (∃ msg, h.GetUser quote ctx ⟨id⟩ = ⟨[], .error ⟨.InvalidArgument, msg⟩⟩) ∧
    (∀ username password, ∃ msg,
      h.UpdateUser quote ctx ⟨id, username, password⟩ = ⟨[], .error ⟨.InvalidArgument, msg⟩⟩) ∧
    (∃ msg, h.DeleteUser quote ctx ⟨id⟩ = ⟨[], .error ⟨.InvalidArgument, msg⟩⟩) := by
  obtain ⟨e, he⟩ := Parse_error_of_not_encoding id hid
  refine ⟨⟨"invalid user ID: " ++ e.Error quote, ?_⟩,
    fun _ _ => ⟨"invalid user ID: " ++ e.Error quote, ?_⟩,
    ⟨"invalid user ID: " ++ e.Error quote, ?_⟩⟩
  · simp only [usergrpc.Handler.GetUser, he, status.Errorf]
  · simp only [usergrpc.Handler.UpdateUser, he, status.Errorf]
  · simp only [usergrpc.Handler.DeleteUser, he, status.Errorf]

/-- The amended C2 at the identifier `not-a-uuid`, over the empty repository. -/
theorem C2_unparsable_user_id_rejected_witness :
    ¬ IsUUIDEncoding "not-a-uuid" ∧
    (∃ msg, emptyUserHandler.GetUser rawQuote background ⟨"not-a-uuid"⟩ =
      ⟨[], .error ⟨.InvalidArgument, msg⟩⟩) :=
  ⟨by decide,
    (C2_unparsable_user_id_rejected rawQuote emptyUserHandler background "not-a-uuid"
      (by decide)).1⟩

/-! ## The message of an identifier failure -/

/-- C8, as stated, fails: for the Link identifier `not-a-valid-id` and the User identifier
`not-a-uuid` parsing fails, and the message of the `InvalidArgument` failure of `GetLink`
and `GetUser` describes the parse failure without containing the identifier. -/
theorem C8_counterexample :
    (emptyLinkHandler.GetLink background ⟨"not-a-valid-id"⟩ =
      ⟨[], .error ⟨.InvalidArgument,
        "invalid link ID: the provided hex string is not a valid ObjectID"⟩⟩ ∧
      ¬ Contains "invalid link ID: the provided hex string is not a valid ObjectID"
        "not-a-valid-id") ∧
    (emptyUserHandler.GetUser rawQuote background ⟨"not-a-uuid"⟩ =
      ⟨[], .error ⟨.InvalidArgument, "invalid user ID: invalid UUID length: 10"⟩⟩ ∧
      ¬ Contains "invalid user ID: invalid UUID length: 10" "not-a-uuid") := by
  refine ⟨⟨by decide, by decide⟩, by decide, by decide⟩

theorem hex_Decode_error : ∀ (bs : List Nat) (e : hex.Error), hex.Decode bs = .error e →
    (e = .ErrLength ∧ bs.length % 2 = 1) ∨
    ∃ pre b post, bs = pre ++ b :: post ∧ (∀ x ∈ pre, IsHexByte x) ∧ ¬ IsHexByte b ∧
      e = .InvalidByteError b
  | [], e, h => by simp [hex.Decode] at h
  | [p], e, h => by
    simp only [hex.Decode] at h
    split_ifs at h with hp
    · cases h
      refine Or.inr ⟨[], p, [], rfl, by simp, ?_, rfl⟩
      intro hx
      have := (reverseHexTable_le_iff p).mpr hx
      omega
    · cases h
      exact Or.inl ⟨rfl, rfl⟩
  | p :: q :: rest, e, h => by
    simp only [hex.Decode] at h
    split_ifs at h with ha hb
    · cases h
      refine Or.inr ⟨[], p, q :: rest, rfl, by simp, ?_, rfl⟩
      intro hx
      have := (reverseHexTable_le_iff p).mpr hx
      omega
    · cases h
      refine Or.inr ⟨[p], q, rest, rfl, ?_, ?_, rfl⟩
      · intro x hx
        simp only [List.mem_singleton] at hx
        subst hx
        exact (reverseHexTable_le_iff x).mp (by omega)
      · intro hx
        have := (reverseHexTable_le_iff q).mpr hx
        omega
    · cases hd : hex.Decode rest with
      | ok out => simp [hd] at h
      | error e2 =>
        simp only [hd, Except.error.injEq] at h
        subst h
        rcases hex_Decode_error rest e2 hd with ⟨he, hl⟩ | ⟨pre, b, post, hbs, hpre, hb2, he⟩
        · exact Or.inl ⟨he, by simp only [List.length_cons]; omega⟩
        · refine Or.inr ⟨p :: q :: pre, b, post, by simp [hbs], ?_, hb2, he⟩
          intro x hx
          simp only [List.mem_cons] at hx
          rcases hx with rfl | rfl | hx
          · exact (reverseHexTable_le_iff x).mp (by omega)
          · exact (reverseHexTable_le_iff x).mp (by omega)
          · exact hpre x hx

theorem decodeAt_error (s : List Nat) : ∀ (idx : List Nat) (e : uuid.Error),
    uuid.decodeAt s idx = .error e → e = .invalidFormat
  | [], e, h => by simp [uuid.decodeAt] at h
  | x :: xs, e, h => by
    simp only [uuid.decodeAt] at h
    rcases hp : uuid.xtob (uuid.byteAt s x) (uuid.byteAt s (x + 1)) with ⟨v, ok⟩
    rw [hp] at h
    cases ok with
    | false =>
      simp only [Except.error.injEq] at h
      exact h.symm
    | true =>
      cases hd : uuid.decodeAt s xs with
      | ok out => simp [hd] at h
      | error e2 =>
        simp only [hd, Except.error.injEq] at h
        subst h
        exact decodeAt_error s xs e2 hd

theorem parseHyphenated_error (b : List Nat) (e : uuid.Error)
    (h : uuid.parseHyphenated b = .error e) : e = .invalidFormat := by
  unfold uuid.parseHyphenated at h
  split_ifs at h
  · simp only [Except.error.injEq] at h
    exact h.symm
  · cases hd : uuid.decodeAt b [0, 2, 4, 6, 9, 11, 14, 16, 19, 21, 24, 26, 28, 30, 32, 34] with
    | ok out => simp [hd] at h
    | error e2 =>
      simp only [hd, Except.error.injEq] at h
      subst h
      exact decodeAt_error b _ e2 hd

/-- The error of `uuid.Parse`, by the length of the string. -/
theorem Parse_error_cases (s : String) (e : uuid.Error) (h : uuid.Parse s = .error e) :
    (len s ≠ 36 ∧ len s ≠ 45 ∧ len s ≠ 38 ∧ len s ≠ 32 → e = .invalidLength (len s)) ∧
    (len s = 45 ∧ ((bytes s).take 9).map uuid.lower ≠ bytes "urn:uuid:" →
      e = .invalidURN ((bytes s).take 9)) ∧
    (len s = 36 ∨ len s = 38 ∨ len s = 32 ∨
      (len s = 45 ∧ ((bytes s).take 9).map uuid.lower = bytes "urn:uuid:") →
      e = .invalidFormat) := by
  unfold len
  unfold uuid.Parse at h
  simp only at h
  refine ⟨?_, ?_, ?_⟩
  · rintro ⟨h36, h45, h38, h32⟩
    rw [if_neg h36, if_neg (by omega), if_neg (by omega), if_neg h32] at h
    cases h
    rfl
  · rintro ⟨h45, hne⟩
    have hf : uuid.equalFoldURN ((bytes s).take 9) = false := by
      cases hq : uuid.equalFoldURN ((bytes s).take 9) with
      | false => rfl
      | true => exact absurd ((equalFoldURN_iff _).mp hq) hne
    rw [if_neg (by omega), if_pos (by omega)] at h
    simp only [hf, Bool.not_false, if_true, Except.error.injEq] at h
    exact h.symm
  · intro hc
    by_cases h36 : (bytes s).length = 36
    · rw [if_pos h36] at h
      exact parseHyphenated_error _ e h
    rw [if_neg h36] at h
    by_cases h45 : (bytes s).length = 36 + 9
    · rw [if_pos h45] at h
      have hq : uuid.equalFoldURN ((bytes s).take 9) = true := by
        rcases hc with h | h | h | ⟨_, h⟩
        · omega
        · omega
        · omega
        · exact (equalFoldURN_iff _).mpr h
      simp only [hq, Bool.not_true, Bool.false_eq_true, if_false] at h
      exact parseHyphenated_error _ e h
    rw [if_neg h45] at h
    by_cases h38 : (bytes s).length = 36 + 2
    · rw [if_pos h38] at h
      exact parseHyphenated_error _ e h
    rw [if_neg h38] at h
    by_cases h32 : (bytes s).length = 32
    · rw [if_pos h32] at h
      cases hd : uuid.decodeAt (bytes s)
          [0, 2, 4, 6, 8, 10, 12, 14, 16, 18, 20, 22, 24, 26, 28, 30] with
      | ok out => simp [hd] at h
      | error e2 =>
        simp only [hd, Except.error.injEq] at h
        subst h
        exact decodeAt_error _ _ e2 hd
    · rcases hc with h | h | h | ⟨h, _⟩ <;> omega

/-- C8, amended: when parsing the identifier fails, the `InvalidArgument` failure of
`GetLink` / `GetUser` carries the message `invalid link ID: ` / `invalid user ID: `
followed by the text of the parser's error.  For a Link identifier that text is
`the provided hex string is not a valid ObjectID` when the identifier is not 24 bytes
long, and otherwise `encoding/hex: invalid byte: ` followed by the `%#U` rendering of the
first byte of the identifier that is not a hexadecimal digit.  For a User identifier it is
`invalid UUID length: ` followed by the byte length when that is none of 36, 45, 38 and
32; `invalid urn prefix: ` followed by the `%q` rendering of the first nine bytes when the
identifier is 45 bytes long and those bytes are not `urn:uuid:` in some letter case; and
`invalid UUID format` in every other case. -/
theorem C8_message_is_parser_error (quote : List Nat → String) (hl : linkgrpc.Handler)
    (hu : usergrpc.Handler) (ctx : context.Context) :
    (∀ (id : String) (e : primitive.Error), primitive.ObjectIDFromHex id = .error e →
      hl.GetLink ctx ⟨id⟩ = ⟨[], .error ⟨.InvalidArgument, "invalid link ID: " ++ e.Error⟩⟩ ∧
      (len id ≠ 24 → e.Error = "the provided hex string is not a valid ObjectID") ∧
      (len id = 24 → ∃ pre b post, bytes id = pre ++ b :: post ∧ (∀ x ∈ pre, IsHexByte x) ∧
        ¬ IsHexByte b ∧ e.Error = "encoding/hex: invalid byte: " ++ fmt.sharpU b)) ∧
    (∀ (id : String) (e : uuid.Error), uuid.Parse id = .error e →
      hu.GetUser quote ctx ⟨id⟩ =
        ⟨[], .error ⟨.InvalidArgument, "invalid user ID: " ++ e.Error quote⟩⟩ ∧
      (len id ≠ 36 ∧ len id ≠ 45 ∧ len id ≠ 38 ∧ len id ≠ 32 →
        e.Error quote = "invalid UUID length: " ++ fmt.decimal (len id)) ∧
      (len id = 45 ∧ ((bytes id).take 9).map uuid.lower ≠ bytes "urn:uuid:" →
        e.Error quote = "invalid urn prefix: " ++ quote ((bytes id).take 9)) ∧
      (len id = 36 ∨ len id = 38 ∨ len id = 32 ∨
        (len id = 45 ∧ ((bytes id).take 9).map uuid.lower = bytes "urn:uuid:") →
        e.Error quote = "invalid UUID format")) := by
  refine ⟨fun id e pl => ⟨?_, ?_, ?_⟩, fun id e pu => ⟨?_, ?_, ?_, ?_⟩⟩
  · simp only [linkgrpc.Handler.GetLink, pl, status.Errorf]
  · intro hlen
    unfold primitive.ObjectIDFromHex at pl
    rw [if_pos hlen] at pl
    cases pl
    rfl
  · intro hlen
    unfold primitive.ObjectIDFromHex at pl
    rw [if_neg (by omega)] at pl
    cases hd : hex.Decode (bytes id) with
    | ok out => simp [hd] at pl
    | error e2 =>
      simp only [hd, Except.error.injEq] at pl
      subst pl
      rcases hex_Decode_error _ e2 hd with ⟨_, hodd⟩ | ⟨pre, b, post, hbs, hpre, hb, he⟩
      · have : (bytes id).length = 24 := hlen
        omega
      · subst he
        exact ⟨pre, b, post, hbs, hpre, hb, rfl⟩
  · simp only [usergrpc.Handler.GetUser, pu, status.Errorf]
  · intro hc
    rw [(Parse_error_cases id e pu).1 hc]
    rfl
  · intro hc
    rw [(Parse_error_cases id e pu).2.1 hc]
    rfl
  · intro hc
    rw [(Parse_error_cases id e pu).2.2 hc]
    rfl

/-- The amended C8 at the Link identifiers `not-a-valid-id` (wrong length) and
`65421c16d07a4b3a9c1f2a0z` (24 bytes, the last not hexadecimal) and at the User
identifiers `not-a-uuid` (wrong length) and `6ba7b810-9dad-11d1-80b4-00c04fd430cg` (36
bytes, the last not hexadecimal). -/
theorem C8_message_is_parser_error_witness :
    primitive.ObjectIDFromHex "not-a-valid-id" = .error .ErrInvalidHex ∧
    primitive.ObjectIDFromHex "65421c16d07a4b3a9c1f2a0z" =
      .error (.decode (.InvalidByteError 122)) ∧
    uuid.Parse "not-a-uuid" = .error (.invalidLength 10) ∧
    uuid.Parse "6ba7b810-9dad-11d1-80b4-00c04fd430cg" = .error .invalidFormat ∧
    emptyLinkHandler.GetLink background ⟨"not-a-valid-id"⟩ =
      ⟨[], .error ⟨.InvalidArgument,
        "invalid link ID: " ++ primitive.Error.ErrInvalidHex.Error⟩⟩ ∧
    emptyLinkHandler.GetLink background ⟨"65421c16d07a4b3a9c1f2a0z"⟩ =
      ⟨[], .error ⟨.InvalidArgument,
        "invalid link ID: " ++ (primitive.Error.decode (.InvalidByteError 122)).Error⟩⟩ ∧
    emptyUserHandler.GetUser rawQuote background ⟨"not-a-uuid"⟩ =
      ⟨[], .error ⟨.InvalidArgument,
        "invalid user ID: " ++ (uuid.Error.invalidLength 10).Error rawQuote⟩⟩ ∧
    (uuid.Error.invalidFormat).Error rawQuote = "invalid UUID format" :=
  ⟨by decide, by decide, by decide, by decide,
    ((C8_message_is_parser_error rawQuote emptyLinkHandler emptyUserHandler background).1
      "not-a-valid-id" .ErrInvalidHex (by decide)).1,
    ((C8_message_is_parser_error rawQuote emptyLinkHandler emptyUserHandler background).1
      "65421c16d07a4b3a9c1f2a0z" (.decode (.InvalidByteError 122)) (by decide)).1,
    ((C8_message_is_parser_error rawQuote emptyLinkHandler emptyUserHandler background).2
      "not-a-uuid" (.invalidLength 10) (by decide)).1,
    ((C8_message_is_parser_error rawQuote emptyLinkHandler emptyUserHandler background).2
      "6ba7b810-9dad-11d1-80b4-00c04fd430cg" .invalidFormat (by decide)).2.2.2
      (Or.inl (by decide))⟩

/-! ## User update -/

/-- C10: when the id of an `UpdateUser` request parses to `uid`, the handler makes exactly
one repository call, a `Create` whose request carries `uid` and the incoming username and
password; `CreateUser` for the same username and password makes one `Create` call whose
request has the zero identifier, and the update request is the create request with the
identifier replaced by `uid`. -/
theorem C10_update_user_is_create_with_id (quote : List Nat → String) (h : usergrpc.Handler)
    (ctx : context.Context) (id username password : String) (uid : uuid.UUID)
    (hp : uuid.Parse id = .ok uid) :
    ∃ updateReq createReq : database.CreateUserReq,
      (h.UpdateUser quote ctx ⟨id, username, password⟩).calls =
        [.Create (context.WithTimeout ctx h.timeout) updateReq] ∧
      (h.CreateUser ctx ⟨username, password⟩).calls =
        [.Create (context.WithTimeout ctx h.timeout) createReq] ∧
      updateReq = ⟨uid, username, password⟩ ∧
      createReq = ⟨uuid.Nil, username, password⟩ ∧
      updateReq = { createReq with ID := uid } := by
  refine ⟨⟨uid, username, password⟩, ⟨uuid.Nil, username, password⟩, ?_, ?_, rfl, rfl, rfl⟩
  · simp only [usergrpc.Handler.UpdateUser, hp]
    cases h.usersRepository.Create (context.WithTimeout ctx h.timeout) ⟨uid, username, password⟩ <;>
      rfl
  · simp only [usergrpc.Handler.CreateUser]
    cases h.usersRepository.Create (context.WithTimeout ctx h.timeout)
      ⟨uuid.Nil, username, password⟩ <;> rfl

/-- C10 at a hyphenated identifier, over the empty repository. -/
theorem C10_update_user_is_create_with_id_witness :
    uuid.Parse "6ba7b810-9dad-11d1-80b4-00c04fd430c8" =
      .ok ⟨[107, 167, 184, 16, 157, 173, 17, 209, 128, 180, 0, 192, 79, 212, 48, 200]⟩ ∧
    ∃ updateReq createReq : database.CreateUserReq,
      (emptyUserHandler.UpdateUser rawQuote background
        ⟨"6ba7b810-9dad-11d1-80b4-00c04fd430c8", "alice", "p"⟩).calls =
        [.Create (context.WithTimeout background emptyUserHandler.timeout) updateReq] ∧
      (emptyUserHandler.CreateUser background ⟨"alice", "p"⟩).calls =
        [.Create (context.WithTimeout background emptyUserHandler.timeout) createReq] ∧
      updateReq = ⟨⟨[107, 167, 184, 16, 157, 173, 17, 209, 128, 180, 0, 192, 79, 212, 48, 200]⟩,
        "alice", "p"⟩ ∧
      createReq = ⟨uuid.Nil, "alice", "p"⟩ ∧
      updateReq = { createReq with ID :=
        ⟨[107, 167, 184, 16, 157, 173, 17, 209, 128, 180, 0, 192, 79, 212, 48, 200]⟩ } :=
  ⟨by decide,
    C10_update_user_is_create_with_id rawQuote emptyUserHandler background
      "6ba7b810-9dad-11d1-80b4-00c04fd430c8" "alice" "p" _ (by decide)⟩

/-! ## Listing -/

theorem Slice.toList_append {α : Type} (s : Slice α) (x : α) :
    (s.append x).toList = s.toList ++ [x] := by
  cases s <;> rfl

theorem foldl_links_toList (recs : List database.Link) : ∀ acc : pb.ListLinkResponse,
    (recs.foldl (fun (response : pb.ListLinkResponse) (link : database.Link) =>
      { response with Links := response.Links.append {
          Id := link.ID.Hex
          Url := link.URL
          Title := link.Title
          Tags := link.Tags
          Images := link.Images
          UserId := link.UserID } }) acc).Links.toList =
      acc.Links.toList ++ recs.map wireLink := by
  induction recs with
  | nil => intro acc; simp
  | cons r rs ih =>
    intro acc
    rw [List.foldl_cons, ih]
    simp [Slice.toList_append, wireLink]

theorem foldl_users_toList (recs : List database.User) : ∀ acc : pb.ListUsersResponse,
    (recs.foldl (fun (response : pb.ListUsersResponse) (user : database.User) =>
      { response with Users := response.Users.append {
          Id := user.ID.String
          Username := user.Username
          Password := user.Password } }) acc).Users.toList =
      acc.Users.toList ++ recs.map wireUser := by
  induction recs with
  | nil => intro acc; simp
  | cons r rs ih =>
    intro acc
    rw [List.foldl_cons, ih]
    simp [Slice.toList_append, wireUser]

/-- C9: when the repository returns a sequence of records, `ListLinks`, `GetLinkByUserID`
and `ListUsers` succeed with the sequence of the wire shapes of those records, in the same
order (so of the same length); and the wire shape is the one `GetLink` / `GetUser` return
for a single record. -/
theorem C9_lists_map_each_record (quote : List Nat → String) (hl : linkgrpc.Handler)
    (hu : usergrpc.Handler) (ctx : context.Context) :
    (∀ all, hl.linksRepository.FindAll (context.WithTimeout ctx hl.timeout) = .ok all →
      ∃ resp, (hl.ListLinks ctx {}).result = .ok resp ∧
        resp.Links.toList = all.toList.map wireLink) ∧
    (∀ userId byUser,
      hl.linksRepository.FindByUserID (context.WithTimeout ctx hl.timeout) userId =
        .ok byUser →
      ∃ resp, (hl.GetLinkByUserID ctx ⟨userId⟩).result = .ok resp ∧
        resp.Links.toList = byUser.toList.map wireLink) ∧
    (∀ users, hu.usersRepository.FindAll (context.WithTimeout ctx hu.timeout) = .ok users →
      ∃ resp, (hu.ListUsers ctx {}).result = .ok resp ∧
        resp.Users.toList = users.toList.map wireUser) ∧
    (∀ id oid link, primitive.ObjectIDFromHex id = .ok oid →
      hl.linksRepository.FindByID (context.WithTimeout ctx hl.timeout) oid = .ok link →
      (hl.GetLink ctx ⟨id⟩).result = .ok (wireLink link)) ∧
    (∀ id uid user, uuid.Parse id = .ok uid →
      hu.usersRepository.FindByID (context.WithTimeout ctx hu.timeout) uid = .ok user →
      (hu.GetUser quote ctx ⟨id⟩).result = .ok (wireUser user)) := by
  refine ⟨?_, ?_, ?_, ?_, ?_⟩
  · intro all h1
    simp only [linkgrpc.Handler.ListLinks, h1]
    exact ⟨_, rfl, by rw [foldl_links_toList]; rfl⟩
  · intro userId byUser h2
    simp only [linkgrpc.Handler.GetLinkByUserID, h2]
    exact ⟨_, rfl, by rw [foldl_links_toList]; rfl⟩
  · intro users h3
    simp only [usergrpc.Handler.ListUsers, h3]
    exact ⟨_, rfl, by rw [foldl_users_toList]; rfl⟩
  · intro id oid link hp hf
    simp only [linkgrpc.Handler.GetLink, hp, hf]
    rfl
  · intro id uid user hp hf
    simp only [usergrpc.Handler.GetUser, hp, hf]
    rfl

/-- C9 over the sample repositories, which hold two Link records and two User records. -/
theorem C9_lists_map_each_record_witness :
    sampleLinkHandler.linksRepository.FindAll
      (context.WithTimeout background sampleLinkHandler.timeout) = .ok (.mk sampleLinks) ∧
    (∃ resp, (sampleLinkHandler.ListLinks background {}).result = .ok resp ∧
      resp.Links.toList = sampleLinks.map wireLink) ∧
    sampleUserHandler.usersRepository.FindAll
      (context.WithTimeout background sampleUserHandler.timeout) = .ok (.mk sampleUsers) ∧
    (∃ resp, (sampleUserHandler.ListUsers background {}).result = .ok resp ∧
      resp.Users.toList = sampleUsers.map wireUser) :=
  ⟨rfl,
    (C9_lists_map_each_record rawQuote sampleLinkHandler sampleUserHandler background).1
      (.mk sampleLinks) rfl,
    rfl,
    (C9_lists_map_each_record rawQuote sampleLinkHandler sampleUserHandler background).2.2.1
      (.mk sampleUsers) rfl⟩

/-! ## Failure kinds -/

theorem FailureKinds.of_parse_error {κ α : Type} (failure : κ → Option String)
    (parseFailed : Prop) (hp : parseFailed) (msg : String) :
    FailureKinds failure parseFailed
      (⟨[], .error ⟨.InvalidArgument, msg⟩⟩ : Outcome κ status.Status α) := by
  refine ⟨?_, ?_, ?_, ?_, ?_, ?_⟩
  · constructor
    · rintro ⟨_, h⟩; cases h
    · rintro ⟨_, _, h, _⟩; cases h
  · intro _ _ _ h; cases h
  · exact ⟨fun _ => hp, fun _ => ⟨msg, rfl⟩⟩
  · intro _; rfl
  · intro s h; cases h; exact Or.inr rfl
  · simp

theorem FailureKinds.of_repo_error {κ α : Type} (failure : κ → Option String)
    (parseFailed : Prop) (hp : ¬ parseFailed) (c : κ) (text cause : String)
    (hc : failure c = some cause) :
    FailureKinds failure parseFailed
      (⟨[c], .error (status.Errorf .Internal text cause)⟩ : Outcome κ status.Status α) := by
  refine ⟨?_, ?_, ?_, ?_, ?_, ?_⟩
  · exact ⟨fun _ => ⟨c, cause, rfl, hc⟩, fun _ => ⟨text ++ cause, rfl⟩⟩
  · intro msg c2 cause2 h hcalls hf
    simp only [List.cons.injEq, and_true] at hcalls
    subst hcalls
    rw [hc] at hf
    cases hf
    simp only [status.Errorf, Except.error.injEq, status.Status.mk.injEq, true_and] at h
    exact ⟨text, h.symm⟩
  · constructor
    · rintro ⟨_, h⟩
      simp [status.Errorf] at h
    · intro h; exact absurd h hp
  · intro h; exact absurd h hp
  · intro s h; cases h; exact Or.inl rfl
  · simp

theorem FailureKinds.of_ok {κ α : Type} (failure : κ → Option String)
    (parseFailed : Prop) (hp : ¬ parseFailed) (c : κ) (v : α)
    (hc : failure c = none) :
    FailureKinds failure parseFailed (⟨[c], .ok v⟩ : Outcome κ status.Status α) := by
  refine ⟨?_, ?_, ?_, ?_, ?_, ?_⟩
  · constructor
    · rintro ⟨_, h⟩; cases h
    · rintro ⟨c2, cause, h, hf⟩
      simp only [List.cons.injEq, and_true] at h
      subst h
      rw [hc] at hf
      cases hf
  · intro _ _ _ h; cases h
  · constructor
    · rintro ⟨_, h⟩; cases h
    · intro h; exact absurd h hp
  · intro h; exact absurd h hp
  · intro s h; cases h
  · simp

/-- C7: every operation of both RPC handlers keeps the two failure kinds apart.  The
result has status `Internal` exactly when the handler's one repository call was made and
answered with an error, whose text then ends the message; it has status `InvalidArgument`
exactly when identifier parsing failed (never, for the operations that parse nothing), and
then no repository call was made; every other result is a success. -/
theorem C7_failure_kinds (quote : List Nat → String) (hl : linkgrpc.Handler)
    (hu : usergrpc.Handler) (ctx : context.Context) (linkID : primitive.ObjectID)
    (byUser : pb.GetLinksByUserId) (createLink : pb.CreateLinkRequest)
    (getLink : pb.GetLinkRequest) (updateLink : pb.UpdateLinkRequest)
    (deleteLink : pb.DeleteLinkRequest) (createUser : pb.CreateUserRequest)
    (getUser : pb.GetUserRequest) (updateUser : pb.UpdateUserRequest)
    (deleteUser : pb.DeleteUserRequest) :
    FailureKinds hl.linksRepository.failure False (hl.GetLinkByUserID ctx byUser) ∧
    FailureKinds hl.linksRepository.failure False (hl.CreateLink linkID ctx createLink) ∧
    FailureKinds hl.linksRepository.failure
      (∃ e, primitive.ObjectIDFromHex getLink.Id = .error e) (hl.GetLink ctx getLink) ∧
    FailureKinds hl.linksRepository.failure
      (∃ e, primitive.ObjectIDFromHex updateLink.Id = .error e) (hl.UpdateLink ctx updateLink) ∧
    FailureKinds hl.linksRepository.failure
      (∃ e, primitive.ObjectIDFromHex deleteLink.Id = .error e) (hl.DeleteLink ctx deleteLink) ∧
    FailureKinds hl.linksRepository.failure False (hl.ListLinks ctx {}) ∧
    FailureKinds hu.usersRepository.failure False (hu.CreateUser ctx createUser) ∧
    FailureKinds hu.usersRepository.failure
      (∃ e, uuid.Parse getUser.Id = .error e) (hu.GetUser quote ctx getUser) ∧
    FailureKinds hu.usersRepository.failure
      (∃ e, uuid.Parse updateUser.Id = .error e) (hu.UpdateUser quote ctx updateUser) ∧
    FailureKinds hu.usersRepository.failure
      (∃ e, uuid.Parse deleteUser.Id = .error e) (hu.DeleteUser quote ctx deleteUser) ∧
    FailureKinds hu.usersRepository.failure False (hu.ListUsers ctx {}) := by
  refine ⟨?_, ?_, ?_, ?_, ?_, ?_, ?_, ?_, ?_, ?_, ?_⟩
  · unfold linkgrpc.Handler.GetLinkByUserID
    simp only
    cases hr : hl.linksRepository.FindByUserID (context.WithTimeout ctx hl.timeout)
        byUser.UserId with
    | error cause =>
      exact FailureKinds.of_repo_error _ _ not_false _ _ _
        (by simp [linkgrpc.linksRepository.failure, hr])
    | ok v =>
      exact FailureKinds.of_ok _ _ not_false _ _
        (by simp [linkgrpc.linksRepository.failure, hr])
  · unfold linkgrpc.Handler.CreateLink
    simp only
    cases hr : hl.linksRepository.Create (context.WithTimeout ctx hl.timeout)
        ⟨linkID, createLink.Url, createLink.Title, createLink.Tags, createLink.Images,
          createLink.UserId⟩ with
    | error cause =>
      exact FailureKinds.of_repo_error _ _ not_false _ _ _
        (by simp [linkgrpc.linksRepository.failure, hr])
    | ok v =>
      exact FailureKinds.of_ok _ _ not_false _ _
        (by simp [linkgrpc.linksRepository.failure, hr])
  · unfold linkgrpc.Handler.GetLink
    simp only
    cases hp : primitive.ObjectIDFromHex getLink.Id with
    | error e => exact FailureKinds.of_parse_error _ _ ⟨e, rfl⟩ _
    | ok id =>
      have np : ¬ ∃ e, (Except.ok id : Except primitive.Error _) = .error e := by
        rintro ⟨_, h⟩; cases h
      simp only
      cases hr : hl.linksRepository.FindByID (context.WithTimeout ctx hl.timeout) id with
      | error cause =>
        exact FailureKinds.of_repo_error _ _ np _ _ _
          (by simp [linkgrpc.linksRepository.failure, hr])
      | ok v =>
        exact FailureKinds.of_ok _ _ np _ _ (by simp [linkgrpc.linksRepository.failure, hr])
  · unfold linkgrpc.Handler.UpdateLink
    simp only
    cases hp : primitive.ObjectIDFromHex updateLink.Id with
    | error e => exact FailureKinds.of_parse_error _ _ ⟨e, rfl⟩ _
    | ok id =>
      have np : ¬ ∃ e, (Except.ok id : Except primitive.Error _) = .error e := by
        rintro ⟨_, h⟩; cases h
      simp only
      cases hr : hl.linksRepository.Update (context.WithTimeout ctx hl.timeout)
          ⟨id, updateLink.Url, updateLink.Title, updateLink.Tags, updateLink.Images,
            updateLink.UserId⟩ with
      | error cause =>
        exact FailureKinds.of_repo_error _ _ np _ _ _
          (by simp [linkgrpc.linksRepository.failure, hr])
      | ok v =>
        exact FailureKinds.of_ok _ _ np _ _ (by simp [linkgrpc.linksRepository.failure, hr])
  · unfold linkgrpc.Handler.DeleteLink
    simp only
    cases hp : primitive.ObjectIDFromHex deleteLink.Id with
    | error e => exact FailureKinds.of_parse_error _ _ ⟨e, rfl⟩ _
    | ok id =>
      have np : ¬ ∃ e, (Except.ok id : Except primitive.Error _) = .error e := by
        rintro ⟨_, h⟩; cases h
      simp only
      cases hr : hl.linksRepository.Delete (context.WithTimeout ctx hl.timeout) id with
      | error cause =>
        exact FailureKinds.of_repo_error _ _ np _ _ _
          (by simp [linkgrpc.linksRepository.failure, hr])
      | ok v =>
        exact FailureKinds.of_ok _ _ np _ _ (by simp [linkgrpc.linksRepository.failure, hr])
  · unfold linkgrpc.Handler.ListLinks
    simp only
    cases hr : hl.linksRepository.FindAll (context.WithTimeout ctx hl.timeout) with
    | error cause =>
      exact FailureKinds.of_repo_error _ _ not_false _ _ _
        (by simp [linkgrpc.linksRepository.failure, hr])
    | ok v =>
      exact FailureKinds.of_ok _ _ not_false _ _
        (by simp [linkgrpc.linksRepository.failure, hr])
  · unfold usergrpc.Handler.CreateUser
    simp only
    cases hr : hu.usersRepository.Create (context.WithTimeout ctx hu.timeout)
        ⟨uuid.Nil, createUser.Username, createUser.Password⟩ with
    | error cause =>
      exact FailureKinds.of_repo_error _ _ not_false _ _ _
        (by simp [usergrpc.usersRepository.failure, hr])
    | ok v =>
      exact FailureKinds.of_ok _ _ not_false _ _
        (by simp [usergrpc.usersRepository.failure, hr])
  · unfold usergrpc.Handler.GetUser
    simp only
    cases hp : uuid.Parse getUser.Id with
    | error e => exact FailureKinds.of_parse_error _ _ ⟨e, rfl⟩ _
    | ok id =>
      have np : ¬ ∃ e, (Except.ok id : Except uuid.Error _) = .error e := by
        rintro ⟨_, h⟩; cases h
      simp only
      cases hr : hu.usersRepository.FindByID (context.WithTimeout ctx hu.timeout) id with
      | error cause =>
        exact FailureKinds.of_repo_error _ _ np _ _ _
          (by simp [usergrpc.usersRepository.failure, hr])
      | ok v =>
        exact FailureKinds.of_ok _ _ np _ _ (by simp [usergrpc.usersRepository.failure, hr])
  · unfold usergrpc.Handler.UpdateUser
    simp only
    cases hp : uuid.Parse updateUser.Id with
    | error e => exact FailureKinds.of_parse_error _ _ ⟨e, rfl⟩ _
    | ok id =>
      have np : ¬ ∃ e, (Except.ok id : Except uuid.Error _) = .error e := by
        rintro ⟨_, h⟩; cases h
      simp only
      cases hr : hu.usersRepository.Create (context.WithTimeout ctx hu.timeout)
          ⟨id, updateUser.Username, updateUser.Password⟩ with
      | error cause =>
        exact FailureKinds.of_repo_error _ _ np _ _ _
          (by simp [usergrpc.usersRepository.failure, hr])
      | ok v =>
        exact FailureKinds.of_ok _ _ np _ _ (by simp [usergrpc.usersRepository.failure, hr])
  · unfold usergrpc.Handler.DeleteUser
    simp only
    cases hp : uuid.Parse deleteUser.Id with
    | error e => exact FailureKinds.of_parse_error _ _ ⟨e, rfl⟩ _
    | ok id =>
      have np : ¬ ∃ e, (Except.ok id : Except uuid.Error _) = .error e := by
        rintro ⟨_, h⟩; cases h
      simp only
      cases hr : hu.usersRepository.DeleteByUserID (context.WithTimeout ctx hu.timeout) id with
      | error cause =>
        exact FailureKinds.of_repo_error _ _ np _ _ _
          (by simp [usergrpc.usersRepository.failure, hr])
      | ok v =>
        exact FailureKinds.of_ok _ _ np _ _ (by simp [usergrpc.usersRepository.failure, hr])
  · unfold usergrpc.Handler.ListUsers
    simp only
    cases hr : hu.usersRepository.FindAll (context.WithTimeout ctx hu.timeout) with
    | error cause =>
      exact FailureKinds.of_repo_error _ _ not_false _ _ _
        (by simp [usergrpc.usersRepository.failure, hr])
    | ok v =>
      exact FailureKinds.of_ok _ _ not_false _ _
        (by simp [usergrpc.usersRepository.failure, hr])

/-! ## The stream decoder and syntactic validity -/

theorem StepKept_error (s : json.scanner) (c : Nat) (context : String) :
    json.StepKept (s.error c context) ∧ (s.error c context).2 ≠ .scanEnd := by
  simp [json.StepKept, json.scanner.error]

theorem StepKept_set (s : json.scanner) (st : json.State) (op : json.Op)
    (hs : s.err = none ∧ s.endTop = false)
    (h3 : st ≠ .stateEndTop) (h4 : st ≠ .stateError) (h5 : st ≠ .stateBeginValueOrEmpty)
    (h6 : st ≠ .stateBeginStringOrEmpty)
    (hop : op ≠ .scanEndObject ∧ op ≠ .scanEndArray) :
    json.StepKept ({ s with step := st }, op) := by
  refine ⟨?_, ?_⟩
  · rintro (h | h)
    · exact absurd h hop.1
    · exact absurd h hop.2
  · intro _ _ _ _
    exact ⟨hs.1, hs.2, h3, h4, fun h => absurd h h5, fun h => absurd h h6⟩

theorem StepKept_same (s : json.scanner) (op : json.Op) (hs : s.Running)
    (hop : op ≠ .scanEndObject ∧ op ≠ .scanEndArray) : json.StepKept (s, op) := by
  refine ⟨?_, fun _ _ _ _ => hs⟩
  rintro (h | h)
  · exact absurd h hop.1
  · exact absurd h hop.2

theorem StepKept_stateEndValue (s : json.scanner) (c : Nat)
    (hs : s.err = none ∧ s.endTop = false) :
    json.StepKept (json.stateEndValue s c) ∧
      ((json.stateEndValue s c).2 = .scanEnd → s.parseState = []) := by
  obtain ⟨step, endTop, ps, err, bytes⟩ := s
  simp only at hs
  obtain ⟨rfl, rfl⟩ := hs
  rcases ps with _ | ⟨p, rest⟩
  · simp only [json.stateEndValue, json.stateEndTop, json.scanner.error]
    split_ifs <;> simp [json.StepKept]
  · cases p <;>
      simp only [json.stateEndValue, json.scanner.error, json.scanner.popParseState,
        List.tail_cons] <;>
      split_ifs <;>
      simp_all [json.StepKept, json.scanner.Running]

theorem StepKept_push (s : json.scanner) (c : Nat) (ps : json.ParseState) (op : json.Op)
    (hs : s.err = none ∧ s.endTop = false)
    (hstep : s.step = .stateBeginStringOrEmpty ∨ s.step = .stateBeginValueOrEmpty)
    (hop : op = .scanBeginObject ∨ op = .scanBeginArray) :
    json.StepKept (s.pushParseState c ps op) ∧ (s.pushParseState c ps op).2 ≠ .scanEnd := by
  unfold json.scanner.pushParseState
  simp only
  generalize json.maxNestingDepth = depth
  split_ifs
  · refine ⟨⟨?_, ?_⟩, ?_⟩
    · rintro (h | h) <;> rcases hop with h2 | h2 <;> simp [h2] at h
    · intro _ _ _ _
      refine ⟨hs.1, hs.2, ?_, ?_, by simp, by simp⟩
      · rcases hstep with h | h <;> simp [h]
      · rcases hstep with h | h <;> simp [h]
    · rcases hop with h2 | h2 <;> simp [h2]
  · exact StepKept_error _ c _

theorem StepKept_stateBeginValue (s : json.scanner) (c : Nat) (hs : s.Running) :
    json.StepKept (json.stateBeginValue s c) ∧ (json.stateBeginValue s c).2 ≠ .scanEnd := by
  have hb : s.err = none ∧ s.endTop = false := ⟨hs.1, hs.2.1⟩
  have set : ∀ st : json.State, st ≠ .stateEndTop → st ≠ .stateError →
      st ≠ .stateBeginValueOrEmpty → st ≠ .stateBeginStringOrEmpty →
      json.StepKept ({ s with step := st }, json.Op.scanBeginLiteral) ∧
        (({ s with step := st }, json.Op.scanBeginLiteral) : json.scanner × json.Op).2 ≠
          .scanEnd :=
    fun st h3 h4 h5 h6 => ⟨StepKept_set s st _ hb h3 h4 h5 h6 (by simp), by simp⟩
  have key : ∀ (p : Prop) [Decidable p] (a b : json.scanner × json.Op),
      (json.StepKept a ∧ a.2 ≠ .scanEnd) → (json.StepKept b ∧ b.2 ≠ .scanEnd) →
      (json.StepKept (if p then a else b) ∧ (if p then a else b).2 ≠ .scanEnd) := by
    intro p _ a b ha hb
    by_cases hp : p
    · rw [if_pos hp]; exact ha
    · rw [if_neg hp]; exact hb
  unfold json.stateBeginValue
  refine key _ _ _ ⟨StepKept_same s _ hs ⟨by simp, by simp⟩, by simp⟩ ?_
  refine key _ _ _ (StepKept_push _ c _ _ hb (Or.inl rfl) (Or.inl rfl)) ?_
  refine key _ _ _ (StepKept_push _ c _ _ hb (Or.inr rfl) (Or.inr rfl)) ?_
  refine key _ _ _ (set _ (by simp) (by simp) (by simp) (by simp)) ?_
  refine key _ _ _ (set _ (by simp) (by simp) (by simp) (by simp)) ?_
  refine key _ _ _ (set _ (by simp) (by simp) (by simp) (by simp)) ?_
  refine key _ _ _ (set _ (by simp) (by simp) (by simp) (by simp)) ?_
  refine key _ _ _ (set _ (by simp) (by simp) (by simp) (by simp)) ?_
  refine key _ _ _ (set _ (by simp) (by simp) (by simp) (by simp)) ?_
  refine key _ _ _ (set _ (by simp) (by simp) (by simp) (by simp)) ?_
  exact StepKept_error s c _

theorem StepKept_stateBeginString (s : json.scanner) (c : Nat) (hs : s.Running) :
    json.StepKept (json.stateBeginString s c) ∧ (json.stateBeginString s c).2 ≠ .scanEnd := by
  have hb : s.err = none ∧ s.endTop = false := ⟨hs.1, hs.2.1⟩
  unfold json.stateBeginString
  split_ifs
  · exact ⟨StepKept_same s _ hs ⟨by simp, by simp⟩, by simp⟩
  · exact ⟨StepKept_set s _ _ hb (by simp) (by simp) (by simp) (by simp) (by simp), by simp⟩
  · exact StepKept_error s c _

theorem StepKept_state0 (s : json.scanner) (c : Nat) (hs : s.err = none ∧ s.endTop = false) :
    json.StepKept (json.state0 s c) ∧ ((json.state0 s c).2 = .scanEnd → s.parseState = []) := by
  unfold json.state0
  split_ifs
  · exact ⟨StepKept_set s _ _ hs (by simp) (by simp) (by simp) (by simp) (by simp), by simp⟩
  · exact ⟨StepKept_set s _ _ hs (by simp) (by simp) (by simp) (by simp) (by simp), by simp⟩
  · exact StepKept_stateEndValue s c hs

theorem StepKept_stateESign (s : json.scanner) (c : Nat)
    (hs : s.err = none ∧ s.endTop = false) :
    json.StepKept (json.stateESign s c) ∧ (json.stateESign s c).2 ≠ .scanEnd := by
  unfold json.stateESign
  split_ifs
  · exact ⟨StepKept_set s _ _ hs (by simp) (by simp) (by simp) (by simp) (by simp), by simp⟩
  · exact StepKept_error s c _

theorem StepKept_literalStep (s : json.scanner) (c expected : Nat) (st : json.State)
    (context : String) (hs : s.err = none ∧ s.endTop = false)
    (h3 : st ≠ .stateEndTop) (h4 : st ≠ .stateError) (h5 : st ≠ .stateBeginValueOrEmpty)
    (h6 : st ≠ .stateBeginStringOrEmpty) :
    json.StepKept (json.literalStep s c expected st context) ∧
      (json.literalStep s c expected st context).2 ≠ .scanEnd := by
  unfold json.literalStep
  split_ifs
  · exact ⟨StepKept_set s _ _ hs h3 h4 h5 h6 (by simp), by simp⟩
  · exact StepKept_error s c _

theorem StepKept_escapeStep (s : json.scanner) (c : Nat) (st : json.State)
    (hs : s.err = none ∧ s.endTop = false)
    (h3 : st ≠ .stateEndTop) (h4 : st ≠ .stateError) (h5 : st ≠ .stateBeginValueOrEmpty)
    (h6 : st ≠ .stateBeginStringOrEmpty) :
    json.StepKept (json.escapeStep s c st) ∧ (json.escapeStep s c st).2 ≠ .scanEnd := by
  unfold json.escapeStep
  split_ifs
  · exact ⟨StepKept_set s _ _ hs h3 h4 h5 h6 (by simp), by simp⟩
  · exact StepKept_error s c _

theorem scanner_next_kept_aux (s : json.scanner) (c : Nat) (hs : s.Running) (q : Prop)
    (q1 : s.step = .stateEndValue → q) (q2 : s.step = .state0 → q) (q3 : s.step = .state1 → q)
    (q4 : s.step = .stateDot0 → q) (q5 : s.step = .stateE0 → q) :
    json.StepKept (s.next c) ∧ ((s.next c).2 = .scanEnd → s.parseState = [] ∧ q) := by
  have hb : s.err = none ∧ s.endTop = false := ⟨hs.1, hs.2.1⟩
  have hbv := StepKept_stateBeginValue s c hs
  have hbs := StepKept_stateBeginString s c hs
  have hev := StepKept_stateEndValue s c hb
  have h0 := StepKept_state0 s c hb
  have hes := StepKept_stateESign s c hb
  have h3 := hs.2.2.1
  have h4 := hs.2.2.2.1
  have h5 := hs.2.2.2.2.1
  have same : ∀ op : json.Op, op ≠ .scanEndObject → op ≠ .scanEndArray → op ≠ .scanEnd →
      json.StepKept (s, op) ∧ (((s, op) : json.scanner × json.Op).2 = .scanEnd →
        s.parseState = [] ∧ q) :=
    fun op h1 h2 h3 => ⟨StepKept_same s op hs ⟨h1, h2⟩, fun h => absurd h h3⟩
  have set : ∀ st : json.State, st ≠ .stateEndTop → st ≠ .stateError →
      st ≠ .stateBeginValueOrEmpty → st ≠ .stateBeginStringOrEmpty →
      json.StepKept ({ s with step := st }, json.Op.scanContinue) ∧
        ((({ s with step := st }, json.Op.scanContinue) : json.scanner × json.Op).2 =
          .scanEnd → s.parseState = [] ∧ q) :=
    fun st h3 h4 h5 h6 => ⟨StepKept_set s st _ hb h3 h4 h5 h6 (by simp), by simp⟩
  have err : ∀ context : String,
      json.StepKept (s.error c context) ∧ ((s.error c context).2 = .scanEnd →
        s.parseState = [] ∧ q) :=
    fun context =>
      ⟨(StepKept_error s c context).1, fun h => absurd h (StepKept_error s c context).2⟩
  have lit : ∀ (expected : Nat) (st : json.State) (context : String),
      st ≠ .stateEndTop → st ≠ .stateError → st ≠ .stateBeginValueOrEmpty →
      st ≠ .stateBeginStringOrEmpty →
      json.StepKept (json.literalStep s c expected st context) ∧
        ((json.literalStep s c expected st context).2 = .scanEnd → s.parseState = [] ∧ q) :=
    fun expected st context h3 h4 h5 h6 =>
      ⟨(StepKept_literalStep s c expected st context hb h3 h4 h5 h6).1,
        fun h => absurd h (StepKept_literalStep s c expected st context hb h3 h4 h5 h6).2⟩
  have esc : ∀ st : json.State,
      st ≠ .stateEndTop → st ≠ .stateError → st ≠ .stateBeginValueOrEmpty →
      st ≠ .stateBeginStringOrEmpty →
      json.StepKept (json.escapeStep s c st) ∧
        ((json.escapeStep s c st).2 = .scanEnd → s.parseState = [] ∧ q) :=
    fun st h3 h4 h5 h6 =>
      ⟨(StepKept_escapeStep s c st hb h3 h4 h5 h6).1,
        fun h => absurd h (StepKept_escapeStep s c st hb h3 h4 h5 h6).2⟩
  have key : ∀ (p : Prop) [Decidable p] (a b : json.scanner × json.Op),
      (json.StepKept a ∧ (a.2 = .scanEnd → s.parseState = [] ∧ q)) →
      (json.StepKept b ∧ (b.2 = .scanEnd → s.parseState = [] ∧ q)) →
      (json.StepKept (if p then a else b) ∧
        ((if p then a else b).2 = .scanEnd → s.parseState = [] ∧ q)) := by
    intro p _ a b ha hb
    by_cases hp : p
    · rw [if_pos hp]; exact ha
    · rw [if_neg hp]; exact hb
  have kbv : json.StepKept (json.stateBeginValue s c) ∧
      ((json.stateBeginValue s c).2 = .scanEnd → s.parseState = [] ∧ q) :=
    ⟨hbv.1, fun h => absurd h hbv.2⟩
  have kbs : json.StepKept (json.stateBeginString s c) ∧
      ((json.stateBeginString s c).2 = .scanEnd → s.parseState = [] ∧ q) :=
    ⟨hbs.1, fun h => absurd h hbs.2⟩
  have kes : json.StepKept (json.stateESign s c) ∧
      ((json.stateESign s c).2 = .scanEnd → s.parseState = [] ∧ q) :=
    ⟨hes.1, fun h => absurd h hes.2⟩
  have kev : q → json.StepKept (json.stateEndValue s c) ∧
      ((json.stateEndValue s c).2 = .scanEnd → s.parseState = [] ∧ q) :=
    fun hq => ⟨hev.1, fun h => ⟨hev.2 h, hq⟩⟩
  have k0 : q → json.StepKept (json.state0 s c) ∧
      ((json.state0 s c).2 = .scanEnd → s.parseState = [] ∧ q) :=
    fun hq => ⟨h0.1, fun h => ⟨h0.2 h, hq⟩⟩
  have kclose : json.StepKept (json.stateEndValue
        { s with parseState := .parseObjectValue :: s.parseState.tail } c) ∧
      ((json.stateEndValue
        { s with parseState := .parseObjectValue :: s.parseState.tail } c).2 = .scanEnd →
          s.parseState = [] ∧ q) :=
    ⟨(StepKept_stateEndValue
        { s with parseState := .parseObjectValue :: s.parseState.tail } c hb).1,
      fun h => absurd ((StepKept_stateEndValue
        { s with parseState := .parseObjectValue :: s.parseState.tail } c hb).2 h) (by simp)⟩
  unfold json.scanner.next
  split
  · exact kbv
  · refine key _ _ _ (same _ (by simp) (by simp) (by simp)) ?_
    refine key _ _ _ ⟨hev.1, fun h => absurd (hev.2 h) (h5 (by assumption))⟩ ?_
    exact kbv
  · refine key _ _ _ (same _ (by simp) (by simp) (by simp)) ?_
    refine key _ _ _ kclose ?_
    exact kbs
  · exact kbs
  · exact kev (q1 (by assumption))
  · exact absurd (by assumption) h3
  · refine key _ _ _ (set _ (by simp) (by simp) (by simp) (by simp)) ?_
    refine key _ _ _ (set _ (by simp) (by simp) (by simp) (by simp)) ?_
    refine key _ _ _ (err _) ?_
    exact same _ (by simp) (by simp) (by simp)
  · refine key _ _ _ (set _ (by simp) (by simp) (by simp) (by simp)) ?_
    refine key _ _ _ (set _ (by simp) (by simp) (by simp) (by simp)) ?_
    exact err _
  · exact esc _ (by simp) (by simp) (by simp) (by simp)
  · exact esc _ (by simp) (by simp) (by simp) (by simp)
  · exact esc _ (by simp) (by simp) (by simp) (by simp)
  · exact esc _ (by simp) (by simp) (by simp) (by simp)
  · refine key _ _ _ (set _ (by simp) (by simp) (by simp) (by simp)) ?_
    refine key _ _ _ (set _ (by simp) (by simp) (by simp) (by simp)) ?_
    exact err _
  · refine key _ _ _ (set _ (by simp) (by simp) (by simp) (by simp)) ?_
    exact k0 (q3 (by assumption))
  · exact k0 (q2 (by assumption))
  · refine key _ _ _ (set _ (by simp) (by simp) (by simp) (by simp)) ?_
    exact err _
  · refine key _ _ _ (same _ (by simp) (by simp) (by simp)) ?_
    refine key _ _ _ (set _ (by simp) (by simp) (by simp) (by simp)) ?_
    exact kev (q4 (by assumption))
  · refine key _ _ _ (set _ (by simp) (by simp) (by simp) (by simp)) ?_
    exact kes
  · exact kes
  · refine key _ _ _ (same _ (by simp) (by simp) (by simp)) ?_
    exact kev (q5 (by assumption))
  · exact lit _ _ _ (by simp) (by simp) (by simp) (by simp)
  · exact lit _ _ _ (by simp) (by simp) (by simp) (by simp)
  · exact lit _ _ _ (by simp) (by simp) (by simp) (by simp)
  · exact lit _ _ _ (by simp) (by simp) (by simp) (by simp)
  · exact lit _ _ _ (by simp) (by simp) (by simp) (by simp)
  · exact lit _ _ _ (by simp) (by simp) (by simp) (by simp)
  · exact lit _ _ _ (by simp) (by simp) (by simp) (by simp)
  · exact lit _ _ _ (by simp) (by simp) (by simp) (by simp)
  · exact lit _ _ _ (by simp) (by simp) (by simp) (by simp)
  · exact lit _ _ _ (by simp) (by simp) (by simp) (by simp)
  · exact absurd (by assumption) h4

/-- One step of a scanner that is inside the first value: it stays inside it unless the
value ends, and it reports the end of the top-level value only with an empty stack and
from a state in which a space would end the value too. -/
theorem scanner_next_kept (s : json.scanner) (c : Nat) (hs : s.Running) :
    json.StepKept (s.next c) ∧
    ((s.next c).2 = .scanEnd → s.parseState = [] ∧
      (s.step = .stateEndValue ∨ s.step = .state0 ∨ s.step = .state1 ∨
        s.step = .stateDot0 ∨ s.step = .stateE0)) :=
  scanner_next_kept_aux s c hs _ (fun h => Or.inl h) (fun h => Or.inr (Or.inl h))
    (fun h => Or.inr (Or.inr (Or.inl h))) (fun h => Or.inr (Or.inr (Or.inr (Or.inl h))))
    (fun h => Or.inr (Or.inr (Or.inr (Or.inr h))))

theorem scanner_space_ends (s : json.scanner) (hs : s.err = none ∧ s.endTop = false)
    (hp : s.parseState = [])
    (hq : s.step = .stateEndValue ∨ s.step = .state0 ∨ s.step = .state1 ∨
      s.step = .stateDot0 ∨ s.step = .stateE0) (b : Nat) :
    ({ s with bytes := b }.next 32).1.endTop = true := by
  obtain ⟨step, endTop, ps, err, bytes⟩ := s
  simp only at hs hp hq
  obtain ⟨rfl, rfl⟩ := hs
  subst hp
  rcases hq with rfl | rfl | rfl | rfl | rfl <;>
    simp [json.scanner.next, json.state0, json.stateEndValue, json.stateEndTop, json.isSpace,
      json.isDigit]

theorem scanner_eof_of_end (s : json.scanner) (c b : Nat) (hs : s.Running)
    (h : ({ s with bytes := b }.next c).2 = .scanEnd) : s.eof = .scanEnd := by
  have hs1 : json.scanner.Running { s with bytes := b } := hs
  have hk := (scanner_next_kept { s with bytes := b } c hs1).2 h
  have he := scanner_space_ends s ⟨hs.1, hs.2.1⟩ hk.1 hk.2 s.bytes
  unfold json.scanner.eof
  simp only [hs.1, hs.2.1, Option.isSome_none, Bool.false_eq_true, if_false]
  rw [if_pos he]

/-- Whatever `readValue` delimits is, by itself, syntactically valid JSON. -/
theorem readValueLoop_valid (all : List Nat) : ∀ (rest : List Nat) (s : json.scanner)
    (n m : Nat), s.Running → json.readValueLoop all s n rest = .ok m →
    ∃ k, m = n + k ∧ k ≤ rest.length ∧ json.checkValid s (rest.take k) = true := by
  intro rest
  induction rest with
  | nil =>
    intro s n m hs h
    simp only [json.readValueLoop] at h
    split_ifs at h with he
    · simp only [Except.ok.injEq] at h
      refine ⟨0, by omega, by simp, ?_⟩
      have := scanner_eof_of_end s 32 s.bytes hs he
      simp [json.checkValid, this]
  | cons c rest ih =>
    intro s n m hs h
    have hs1 : json.scanner.Running { s with bytes := s.bytes + 1 } := hs
    have hk := scanner_next_kept { s with bytes := s.bytes + 1 } c hs1
    rcases hr : json.scanner.next { s with bytes := s.bytes + 1 } c with ⟨next, op⟩
    rw [hr] at hk
    have cont : op ≠ .scanEnd → op ≠ .scanError → op ≠ .scanEndObject → op ≠ .scanEndArray →
        json.readValueLoop all next (n + 1) rest = .ok m →
        ∃ k, m = n + k ∧ k ≤ (c :: rest).length ∧
          json.checkValid s ((c :: rest).take k) = true := by
      intro h1 h2 h3 h4 hloop
      obtain ⟨k, hm, hle, hv⟩ := ih next (n + 1) m (hk.1.2 h1 h2 h3 h4) hloop
      refine ⟨k + 1, by omega, by simp only [List.length_cons]; omega, ?_⟩
      simp only [List.take_succ_cons, json.checkValid, hr]
      cases op <;> first | exact absurd rfl h2 | exact hv
    have close : op = .scanEndObject ∨ op = .scanEndArray →
        (if (json.stateEndValue next 32).2 = .scanEnd then (Except.ok (n + 1) : Except json.Error Nat)
          else json.readValueLoop all (json.stateEndValue next 32).1 (n + 1) rest) = .ok m →
        ∃ k, m = n + k ∧ k ≤ (c :: rest).length ∧
          json.checkValid s ((c :: rest).take k) = true := by
      intro hop hloop
      obtain ⟨herr, hcase⟩ := hk.1.1 hop
      rcases hcase with ⟨hnil, htop⟩ | ⟨hne, hrun, hstep⟩
      · have herr2 : next.err = none := herr
        have hnil2 : next.parseState = [] := hnil
        have htop2 : next.endTop = true := htop
        have hend : (json.stateEndValue next 32).2 = .scanEnd := by
          unfold json.stateEndValue
          split
          · simp [json.stateEndTop, json.isSpace]
          · rename_i hcons
            rw [hnil2] at hcons
            cases hcons
        rw [if_pos hend] at hloop
        simp only [Except.ok.injEq] at hloop
        refine ⟨1, by omega, by simp, ?_⟩
        have heof : next.eof = .scanEnd := by
          unfold json.scanner.eof
          simp [herr2, htop2]
        simp only [List.take_succ_cons, List.take_zero, json.checkValid, hr]
        rcases hop with rfl | rfl <;> simp [json.checkValid, heof]
      · have hne2 : next.parseState ≠ [] := hne
        have hstep2 : next.step = .stateEndValue := hstep
        obtain ⟨p, ps, hps⟩ := List.exists_cons_of_ne_nil hne2
        have hsame : json.stateEndValue next 32 = (next, .scanSkipSpace) := by
          obtain ⟨st, et, pst, er, by_⟩ := next
          simp only at hps hstep2
          subst hps hstep2
          simp [json.stateEndValue, json.isSpace]
        rw [hsame] at hloop
        simp only [reduceCtorEq, if_false] at hloop
        obtain ⟨k, hm, hle, hv⟩ := ih next (n + 1) m hrun hloop
        refine ⟨k + 1, by omega, by simp only [List.length_cons]; omega, ?_⟩
        simp only [List.take_succ_cons, json.checkValid, hr]
        rcases hop with rfl | rfl <;> exact hv
    simp only [json.readValueLoop, hr] at h
    cases op
    case scanEnd =>
      simp only [Except.ok.injEq] at h
      refine ⟨0, by omega, by simp, ?_⟩
      have := scanner_eof_of_end s c (s.bytes + 1) hs (by rw [hr])
      simp [json.checkValid, this]
    case scanError =>
      simp only at h
      split at h <;> cases h
    case scanEndObject => exact close (Or.inl rfl) h
    case scanEndArray => exact close (Or.inr rfl) h
    all_goals exact cont (by simp) (by simp) (by simp) (by simp) h

theorem readValue_valid (body : List Nat) (n : Nat) (h : json.readValue body = .ok n) :
    n ≤ body.length ∧ json.Valid (body.take n) = true := by
  have hrun : json.scanner.Running json.scanner.reset := by
    simp [json.scanner.Running, json.scanner.reset]
  obtain ⟨k, hm, hle, hv⟩ := readValueLoop_valid body body json.scanner.reset 0 n hrun h
  have : n = k := by omega
  subst this
  exact ⟨hle, hv⟩

theorem checkValid_spaces : ∀ (text : List Nat) (b : Nat),
    (∀ c ∈ text, json.isSpace c = true) →
    json.checkValid { json.scanner.reset with bytes := b } text = false
  | [], b, _ => by
    simp [json.checkValid, json.scanner.eof, json.scanner.reset, json.scanner.next,
      json.stateBeginValue, json.isSpace]
  | c :: rest, b, h => by
    have hc : json.isSpace c = true := h c (by simp)
    have ih := checkValid_spaces rest (b + 1) (fun x hx => h x (by simp [hx]))
    simp only [json.checkValid, json.scanner.reset, json.scanner.next, json.stateBeginValue,
      hc, if_true]
    exact ih

theorem firstByte_of_valid (text : List Nat) (h : json.Valid text = true) :
    ∃ c rest, text.dropWhile (fun c => json.isSpace c) = c :: rest := by
  rcases hd : text.dropWhile (fun c => json.isSpace c) with _ | ⟨c, rest⟩
  · have hall : ∀ c ∈ text, json.isSpace c = true := by
      intro c hc
      have := (List.dropWhile_eq_nil_iff.mp hd) c hc
      simpa using this
    have := checkValid_spaces text 0 hall
    unfold json.Valid at h
    have e : ({ json.scanner.reset with bytes := 0 } : json.scanner) = json.scanner.reset := rfl
    rw [e] at this
    rw [this] at h
    cases h
  · exact ⟨c, rest, rfl⟩

/-- If no leading part of the body decodes by itself into the request, decoding fails. -/
theorem Decode_fails {α : Type} (typeName : String)
    (object : List Nat → α → α × Option json.Error) (body : List Nat) (zero : α)
    (hno : ∀ n, n ≤ body.length → ¬ DecodesAlone object zero (body.take n)) :
    ∃ e, (json.Decode typeName object body zero).2 = some e := by
  unfold json.Decode
  cases hr : json.readValue body with
  | error e => exact ⟨e, rfl⟩
  | ok n =>
    obtain ⟨hle, hvalid⟩ := readValue_valid body n hr
    have hna := hno n hle
    obtain ⟨c, rest, hd⟩ := firstByte_of_valid _ hvalid
    have hfb : json.firstByte (body.take n) = some c := by
      simp [json.firstByte, hd]
    simp only [json.unmarshal, hd]
    by_cases h123 : c = 123
    · subst h123
      rw [if_pos rfl]
      cases ho : (object (List.take n body) zero).2 with
      | some e => exact ⟨e, rfl⟩
      | none => exact absurd ⟨hvalid, Or.inr ⟨hfb, ho⟩⟩ hna
    rw [if_neg h123]
    by_cases h91 : c = 91
    · rw [if_pos h91]; exact ⟨_, rfl⟩
    rw [if_neg h91]
    by_cases h110 : c = 110
    · subst h110
      exact absurd ⟨hvalid, Or.inl hfb⟩ hna
    rw [if_neg h110]
    split_ifs <;> exact ⟨_, rfl⟩

theorem rejected_of_Decode_fails (header : List (String × String)) (e : json.Error) :
    (http.Error (http.NewResponse header) e.Error http.StatusBadRequest).Code = 400 := by
  simp [http.Error, http.NewResponse, http.ResponseWriter.Set,
    http.ResponseWriter.WriteHeader, http.ResponseWriter.Write, http.ResponseWriter.Code,
    http.StatusBadRequest]

/-! ## Request bodies at the gateway -/

/-- C3, as stated, fails at the body `nullx`: it is not syntactically valid JSON, yet the
decoder reads the value `null`, leaves the request at its zero value and ignores the rest;
`PostLinks` and `PostUsers` then call the RPC client and answer 201, `PutLinksId` and
`PutUsersId` call it too.  This holds for every codec of the message types. -/
theorem C3_counterexample :
    json.Valid (bytes "nullx") = false ∧
    ∀ j : pb.JSON,
      v1.linksHandler.PostLinks j ⟨emptyLinkHandler.client sampleLinkID⟩ (http.NewResponse [])
          ⟨background, bytes "nullx"⟩ =
        ⟨(http.NewResponse []).WriteHeader 201,
          [.CreateLink ⟨some 10000000000⟩ ⟨"", "", .null, .null, ""⟩]⟩ ∧
      v1.usersHandler.PostUsers j ⟨emptyUserHandler.client rawQuote⟩ (http.NewResponse [])
          ⟨background, bytes "nullx"⟩ =
        ⟨(http.NewResponse []).WriteHeader 201, [.CreateUser ⟨some 10000000000⟩ ⟨"", ""⟩]⟩ ∧
      (v1.linksHandler.PutLinksId j ⟨emptyLinkHandler.client sampleLinkID⟩
          (http.NewResponse []) ⟨background, bytes "nullx"⟩ "not-a-valid-id").calls =
        [.UpdateLink ⟨some 10000000000⟩ ⟨"not-a-valid-id", "", "", .null, .null, ""⟩] ∧
      (v1.usersHandler.PutUsersId j ⟨emptyUserHandler.client rawQuote⟩
          (http.NewResponse []) ⟨background, bytes "nullx"⟩ "not-a-uuid").calls =
        [.UpdateUser ⟨some 10000000000⟩ ⟨"not-a-uuid", "", ""⟩] := by
  refine ⟨by decide, fun j => ⟨?_, ?_, ?_, ?_⟩⟩ <;> rfl

/-- C3, amended: for every request body that is empty or is not syntactically valid JSON,
unless some leading part of the body is by itself a valid JSON text that decodes into the
request message (the value `null`, or an object that the JSON decoding of the message
accepts), `PostLinks`, `PutLinksId`, `PostUsers` and `PutUsersId` answer 400 and make no
RPC call, for every path identifier and every client. -/
theorem C3_unreadable_body_rejected (j : pb.JSON) (lh : v1.linksHandler)
    (uh : v1.usersHandler) (header : List (String × String)) (r : http.Request)
    (id : String) (hbody : r.Body = [] ∨ json.Valid r.Body = false) :
    ((∀ n, n ≤ r.Body.length →
        ¬ DecodesAlone j.objectCreateLinkRequest ⟨"", "", .null, .null, ""⟩ (r.Body.take n)) →
      (lh.PostLinks j (http.NewResponse header) r).calls = [] ∧
      (lh.PostLinks j (http.NewResponse header) r).w.Code = 400) ∧
    ((∀ n, n ≤ r.Body.length →
        ¬ DecodesAlone j.objectUpdateLinkRequest ⟨"", "", "", .null, .null, ""⟩
          (r.Body.take n)) →
      (lh.PutLinksId j (http.NewResponse header) r id).calls = [] ∧
      (lh.PutLinksId j (http.NewResponse header) r id).w.Code = 400) ∧
    ((∀ n, n ≤ r.Body.length →
        ¬ DecodesAlone j.objectCreateUserRequest ⟨"", ""⟩ (r.Body.take n)) →
      (uh.PostUsers j (http.NewResponse header) r).calls = [] ∧
      (uh.PostUsers j (http.NewResponse header) r).w.Code = 400) ∧
    ((∀ n, n ≤ r.Body.length →
        ¬ DecodesAlone j.objectUpdateUserRequest ⟨"", "", ""⟩ (r.Body.take n)) →
      (uh.PutUsersId j (http.NewResponse header) r id).calls = [] ∧
      (uh.PutUsersId j (http.NewResponse header) r id).w.Code = 400) := by
  rcases hbody with _ | _ <;>
  · refine ⟨?_, ?_, ?_, ?_⟩
    · intro hno
      obtain ⟨e, he⟩ := Decode_fails "pb.CreateLinkRequest" _ _ _ hno
      rcases hd : json.Decode "pb.CreateLinkRequest" j.objectCreateLinkRequest r.Body
        ⟨"", "", .null, .null, ""⟩ with ⟨d, oe⟩
      rw [hd] at he
      simp only at he
      subst he
      simp only [v1.linksHandler.PostLinks, hd]
      exact ⟨trivial, rejected_of_Decode_fails header e⟩
    · intro hno
      obtain ⟨e, he⟩ := Decode_fails "pb.UpdateLinkRequest" _ _ _ hno
      rcases hd : json.Decode "pb.UpdateLinkRequest" j.objectUpdateLinkRequest r.Body
        ⟨"", "", "", .null, .null, ""⟩ with ⟨d, oe⟩
      rw [hd] at he
      simp only at he
      subst he
      simp only [v1.linksHandler.PutLinksId, hd]
      exact ⟨trivial, rejected_of_Decode_fails header e⟩
    · intro hno
      obtain ⟨e, he⟩ := Decode_fails "pb.CreateUserRequest" _ _ _ hno
      rcases hd : json.Decode "pb.CreateUserRequest" j.objectCreateUserRequest r.Body
        ⟨"", ""⟩ with ⟨d, oe⟩
      rw [hd] at he
      simp only at he
      subst he
      simp only [v1.usersHandler.PostUsers, hd]
      exact ⟨trivial, rejected_of_Decode_fails header e⟩
    · intro hno
      obtain ⟨e, he⟩ := Decode_fails "pb.UpdateUserRequest" _ _ _ hno
      rcases hd : json.Decode "pb.UpdateUserRequest" j.objectUpdateUserRequest r.Body
        ⟨"", "", ""⟩ with ⟨d, oe⟩
      rw [hd] at he
      simp only at he
      subst he
      simp only [v1.usersHandler.PutUsersId, hd]
      exact ⟨trivial, rejected_of_Decode_fails header e⟩

/-- The amended C3 at the empty body, at the bodies `[]x`, `12x` and `"a"x` (an array, a
number, a string, each followed by a stray byte) and at the truncated object `{"url":`:
none is valid JSON, none has a leading part that decodes alone, and `PostLinks` answers
400 without an RPC call. -/
theorem C3_unreadable_body_rejected_witness :
    (json.Valid (bytes "[]x") = false ∧
      (∀ n, n ≤ (bytes "[]x").length →
        ¬ DecodesAlone sampleJSON.objectCreateLinkRequest ⟨"", "", .null, .null, ""⟩
          ((bytes "[]x").take n)) ∧
      (v1.linksHandler.PostLinks sampleJSON ⟨emptyLinkHandler.client sampleLinkID⟩
          (http.NewResponse []) ⟨background, bytes "[]x"⟩).calls = [] ∧
      (v1.linksHandler.PostLinks sampleJSON ⟨emptyLinkHandler.client sampleLinkID⟩
          (http.NewResponse []) ⟨background, bytes "[]x"⟩).w.Code = 400) ∧
    ((v1.linksHandler.PostLinks sampleJSON ⟨emptyLinkHandler.client sampleLinkID⟩
          (http.NewResponse []) ⟨background, bytes ""⟩).calls = [] ∧
      (v1.linksHandler.PostLinks sampleJSON ⟨emptyLinkHandler.client sampleLinkID⟩
          (http.NewResponse []) ⟨background, bytes ""⟩).w.Code = 400) ∧
    (json.Valid (bytes "12x") = false ∧
      (v1.linksHandler.PostLinks sampleJSON ⟨emptyLinkHandler.client sampleLinkID⟩
          (http.NewResponse []) ⟨background, bytes "12x"⟩).calls = [] ∧
      (v1.linksHandler.PostLinks sampleJSON ⟨emptyLinkHandler.client sampleLinkID⟩
          (http.NewResponse []) ⟨background, bytes "12x"⟩).w.Code = 400) ∧
    (json.Valid (bytes "\x7b\"url\":") = false ∧
      (v1.linksHandler.PostLinks sampleJSON ⟨emptyLinkHandler.client sampleLinkID⟩
          (http.NewResponse []) ⟨background, bytes "\x7b\"url\":"⟩).calls = [] ∧
      (v1.linksHandler.PostLinks sampleJSON ⟨emptyLinkHandler.client sampleLinkID⟩
          (http.NewResponse []) ⟨background, bytes "\x7b\"url\":"⟩).w.Code = 400) ∧
    (json.Valid (bytes "\"a\"x") = false ∧
      (v1.usersHandler.PutUsersId sampleJSON ⟨emptyUserHandler.client rawQuote⟩
          (http.NewResponse []) ⟨background, bytes "\"a\"x"⟩ "not-a-uuid").calls = [] ∧
      (v1.usersHandler.PutUsersId sampleJSON ⟨emptyUserHandler.client rawQuote⟩
          (http.NewResponse []) ⟨background, bytes "\"a\"x"⟩ "not-a-uuid").w.Code = 400) :=
  ⟨⟨by decide, by decide,
      (C3_unreadable_body_rejected sampleJSON ⟨emptyLinkHandler.client sampleLinkID⟩
        ⟨emptyUserHandler.client rawQuote⟩ [] ⟨background, bytes "[]x"⟩ "x"
        (Or.inr (by decide))).1 (by decide)⟩,
    (C3_unreadable_body_rejected sampleJSON ⟨emptyLinkHandler.client sampleLinkID⟩
      ⟨emptyUserHandler.client rawQuote⟩ [] ⟨background, bytes ""⟩ "x"
      (Or.inl rfl)).1 (by decide),
    ⟨by decide,
      (C3_unreadable_body_rejected sampleJSON ⟨emptyLinkHandler.client sampleLinkID⟩
        ⟨emptyUserHandler.client rawQuote⟩ [] ⟨background, bytes "12x"⟩ "x"
        (Or.inr (by decide))).1 (by decide)⟩,
    ⟨by decide,
      (C3_unreadable_body_rejected sampleJSON ⟨emptyLinkHandler.client sampleLinkID⟩
        ⟨emptyUserHandler.client rawQuote⟩ [] ⟨background, bytes "\x7b\"url\":"⟩ "x"
        (Or.inr (by decide))).1 (by decide)⟩,
    ⟨by decide,
      (C3_unreadable_body_rejected sampleJSON ⟨emptyLinkHandler.client sampleLinkID⟩
        ⟨emptyUserHandler.client rawQuote⟩ [] ⟨background, bytes "\"a\"x"⟩ "not-a-uuid"
        (Or.inr (by decide))).2.2.2 (by decide)⟩⟩

/-- C4: when the Update body decodes to `d`, the request `PutLinksId` / `PutUsersId` passes
to the RPC Update call is `d` with `Id` replaced by the path identifier `p`, whatever `Id`
the body gave to `d`; and when `p` parses to `oid`, the one repository call `UpdateLink`
makes for that request is an `Update` whose request carries `oid`. -/
theorem C4_update_uses_path_id (j : pb.JSON) (w : http.ResponseWriter) (r : http.Request)
    (p : String) :
    (∀ (lh : v1.linksHandler) (d : pb.UpdateLinkRequest),
      json.Decode "pb.UpdateLinkRequest" j.objectUpdateLinkRequest r.Body
        ⟨"", "", "", .null, .null, ""⟩ = (d, none) →
      (lh.PutLinksId j w r p).calls =
        [.UpdateLink (context.WithTimeout r.ctx (time.Second * 10)) { d with Id := p }]) ∧
    (∀ (uh : v1.usersHandler) (d : pb.UpdateUserRequest),
      json.Decode "pb.UpdateUserRequest" j.objectUpdateUserRequest r.Body
        ⟨"", "", ""⟩ = (d, none) →
      (uh.PutUsersId j w r p).calls =
        [.UpdateUser (context.WithTimeout r.ctx (time.Second * 10)) { d with Id := p }]) ∧
    (∀ (h : linkgrpc.Handler) (linkID oid : primitive.ObjectID) (d : pb.UpdateLinkRequest),
      json.Decode "pb.UpdateLinkRequest" j.objectUpdateLinkRequest r.Body
        ⟨"", "", "", .null, .null, ""⟩ = (d, none) →
      primitive.ObjectIDFromHex p = .ok oid →
      ((v1.linksHandler.PutLinksId j ⟨h.client linkID⟩ w r p).calls.map (h.serve linkID)) =
        [[.Update (context.WithTimeout (context.WithTimeout r.ctx (time.Second * 10)) h.timeout)
          ⟨oid, d.Url, d.Title, d.Tags.transmit, d.Images.transmit, d.UserId⟩]]) := by
  have key : ∀ (lh : v1.linksHandler) (d : pb.UpdateLinkRequest),
      json.Decode "pb.UpdateLinkRequest" j.objectUpdateLinkRequest r.Body
        ⟨"", "", "", .null, .null, ""⟩ = (d, none) →
      (lh.PutLinksId j w r p).calls =
        [.UpdateLink (context.WithTimeout r.ctx (time.Second * 10)) { d with Id := p }] := by
    intro lh d hd
    simp only [v1.linksHandler.PutLinksId, hd]
    cases lh.client.UpdateLink (context.WithTimeout r.ctx (time.Second * 10))
      { d with Id := p } <;> rfl
  refine ⟨key, ?_, ?_⟩
  · intro uh d hd
    simp only [v1.usersHandler.PutUsersId, hd]
    cases uh.client.UpdateUser (context.WithTimeout r.ctx (time.Second * 10))
      { d with Id := p } <;> rfl
  · intro h linkID oid d hd hp
    rw [key _ d hd]
    simp only [List.map_cons, List.map_nil, linkgrpc.Handler.serve,
      linkgrpc.Handler.UpdateLink, pb.UpdateLinkRequest.transmit, hp]
    cases h.linksRepository.Update
      (context.WithTimeout (context.WithTimeout r.ctx (time.Second * 10)) h.timeout)
      ⟨oid, d.Url, d.Title, d.Tags.transmit, d.Images.transmit, d.UserId⟩ <;> rfl

/-- C4 at a body that carries the identifier `65421c16d07a4b3a9c1f2a02` while the path
identifier is `65421c16d07a4b3a9c1f2a01`: the RPC request and the repository request
carry the path identifier. -/
theorem C4_update_uses_path_id_witness :
    json.Decode "pb.UpdateLinkRequest" sampleJSON.objectUpdateLinkRequest
      (bytes "\x7b\"id\":\"65421c16d07a4b3a9c1f2a02\",\"url\":\"https://go.dev\"\x7d")
      ⟨"", "", "", .null, .null, ""⟩ =
        (⟨"65421c16d07a4b3a9c1f2a02", "https://go.dev", "", .null, .null, ""⟩, none) ∧
    primitive.ObjectIDFromHex "65421c16d07a4b3a9c1f2a01" =
      .ok ⟨[101, 66, 28, 22, 208, 122, 75, 58, 156, 31, 42, 1]⟩ ∧
    (v1.linksHandler.PutLinksId sampleJSON ⟨sampleLinkHandler.client sampleLinkID⟩
        (http.NewResponse [])
        ⟨background,
          bytes "\x7b\"id\":\"65421c16d07a4b3a9c1f2a02\",\"url\":\"https://go.dev\"\x7d"⟩
        "65421c16d07a4b3a9c1f2a01").calls =
      [.UpdateLink (context.WithTimeout background (time.Second * 10))
        ⟨"65421c16d07a4b3a9c1f2a01", "https://go.dev", "", .null, .null, ""⟩] ∧
    ((v1.linksHandler.PutLinksId sampleJSON ⟨sampleLinkHandler.client sampleLinkID⟩
        (http.NewResponse [])
        ⟨background,
          bytes "\x7b\"id\":\"65421c16d07a4b3a9c1f2a02\",\"url\":\"https://go.dev\"\x7d"⟩
        "65421c16d07a4b3a9c1f2a01").calls.map (sampleLinkHandler.serve sampleLinkID)) =
      [[.Update (context.WithTimeout (context.WithTimeout background (time.Second * 10))
          sampleLinkHandler.timeout)
        ⟨⟨[101, 66, 28, 22, 208, 122, 75, 58, 156, 31, 42, 1]⟩, "https://go.dev", "", .null,
          .null, ""⟩]] :=
  ⟨by decide, by decide,
    (C4_update_uses_path_id sampleJSON (http.NewResponse [])
      ⟨background,
        bytes "\x7b\"id\":\"65421c16d07a4b3a9c1f2a02\",\"url\":\"https://go.dev\"\x7d"⟩
      "65421c16d07a4b3a9c1f2a01").1 ⟨sampleLinkHandler.client sampleLinkID⟩
      ⟨"65421c16d07a4b3a9c1f2a02", "https://go.dev", "", .null, .null, ""⟩ (by decide),
    (C4_update_uses_path_id sampleJSON (http.NewResponse [])
      ⟨background,
        bytes "\x7b\"id\":\"65421c16d07a4b3a9c1f2a02\",\"url\":\"https://go.dev\"\x7d"⟩
      "65421c16d07a4b3a9c1f2a01").2.2 sampleLinkHandler sampleLinkID
      ⟨[101, 66, 28, 22, 208, 122, 75, 58, 156, 31, 42, 1]⟩
      ⟨"65421c16d07a4b3a9c1f2a02", "https://go.dev", "", .null, .null, ""⟩ (by decide)
      (by decide)⟩

/-! ## The HTTP status of a gateway reply -/

theorem ReplyFollows.of_error {α : Type} (header : List (String × String)) (e : status.Status)
    (success : Nat) (emptyBody : Bool) :
    ReplyFollows (.error e : Except status.Status α) success emptyBody
      (http.Error (http.NewResponse header) e.Error http.StatusInternalServerError) := by
  refine ⟨?_, ?_, ?_⟩
  · simp [http.Error, http.NewResponse, http.ResponseWriter.Set,
      http.ResponseWriter.WriteHeader, http.ResponseWriter.Write, http.ResponseWriter.Code,
      http.StatusInternalServerError]
  · intro code msg h
    cases h
    simp [http.Error, http.NewResponse, http.ResponseWriter.Set,
      http.ResponseWriter.WriteHeader, http.ResponseWriter.Write, status.Status.Error]
  · intro v h; cases h

theorem ReplyFollows.of_written {α : Type} (header : List (String × String)) (v : α)
    (success : Nat) (hs : success ≠ 500) :
    ReplyFollows (.ok v : Except status.Status α) success true
      ((http.NewResponse header).WriteHeader success) := by
  refine ⟨?_, ?_, ?_⟩
  · simp [http.NewResponse, http.ResponseWriter.WriteHeader, http.ResponseWriter.Code, hs]
  · intro code msg h; cases h
  · intro _ _
    simp [http.NewResponse, http.ResponseWriter.WriteHeader, http.ResponseWriter.Code]

theorem ReplyFollows.of_encoded {α : Type} (header : List (String × String)) (v : α)
    (text : String) :
    ReplyFollows (.ok v : Except status.Status α) 200 false
      (match json.Encode ((http.NewResponse header).Set "Content-Type" "application/json")
          text with
        | (w, some err) => http.Error w err http.StatusInternalServerError
        | (w, none) => w) := by
  refine ⟨?_, ?_, ?_⟩
  · simp [json.Encode, http.NewResponse, http.ResponseWriter.Set,
      http.ResponseWriter.WriteHeader, http.ResponseWriter.Write, http.ResponseWriter.Code,
      http.StatusOK]
  · intro code msg h; cases h
  · intro _ _
    simp [json.Encode, http.NewResponse, http.ResponseWriter.Set,
      http.ResponseWriter.WriteHeader, http.ResponseWriter.Write, http.ResponseWriter.Code,
      http.StatusOK]

/-- C5: for every gateway operation of both families (the body, where there is one, having
decoded), the reply follows the outcome of the RPC call alone: status 500 with the error
text as body exactly when the client returns an error, whatever its status code, and
otherwise the success status of the operation (200 for the reads, 201 for Create, 204 for
Update and Delete, the last three with an empty body). -/
theorem C5_status_follows_rpc_outcome (j : pb.JSON) (h : v1.Handler)
    (header : List (String × String)) (r : http.Request) (id : String) :
    ReplyFollows (h.linksHandler.client.ListLinks (context.WithTimeout r.ctx (time.Second * 10)) {})
      200 false (h.linksHandler.GetLinks j (http.NewResponse header) r).w ∧
    (∀ d, json.Decode "pb.CreateLinkRequest" j.objectCreateLinkRequest r.Body
        ⟨"", "", .null, .null, ""⟩ = (d, none) →
      ReplyFollows (h.linksHandler.client.CreateLink
          (context.WithTimeout r.ctx (time.Second * 10)) d)
        201 true (h.linksHandler.PostLinks j (http.NewResponse header) r).w) ∧
    ReplyFollows (h.linksHandler.client.DeleteLink
        (context.WithTimeout r.ctx (time.Second * 10)) ⟨id⟩)
      204 true (h.linksHandler.DeleteLinksId (http.NewResponse header) r id).w ∧
    ReplyFollows (h.linksHandler.client.GetLink
        (context.WithTimeout r.ctx (time.Second * 10)) ⟨id⟩)
      200 false (h.GetLinksId j (http.NewResponse header) r id).w ∧
    (∀ d, json.Decode "pb.UpdateLinkRequest" j.objectUpdateLinkRequest r.Body
        ⟨"", "", "", .null, .null, ""⟩ = (d, none) →
      ReplyFollows (h.linksHandler.client.UpdateLink
          (context.WithTimeout r.ctx (time.Second * 10)) { d with Id := id })
        204 true (h.linksHandler.PutLinksId j (http.NewResponse header) r id).w) ∧
    ReplyFollows (h.linksHandler.client.GetLinkByUserID
        (context.WithTimeout r.ctx (time.Second * 10)) ⟨id⟩)
      200 false (h.linksHandler.GetLinksUserUserID j (http.NewResponse header) r id).w ∧
    ReplyFollows (h.usersHandler.client.ListUsers (context.WithTimeout r.ctx (time.Second * 10)) {})
      200 false (h.usersHandler.GetUsers j (http.NewResponse header) r).w ∧
    (∀ d, json.Decode "pb.CreateUserRequest" j.objectCreateUserRequest r.Body
        ⟨"", ""⟩ = (d, none) →
      ReplyFollows (h.usersHandler.client.CreateUser
          (context.WithTimeout r.ctx (time.Second * 10)) d)
        201 true (h.usersHandler.PostUsers j (http.NewResponse header) r).w) ∧
    ReplyFollows (h.usersHandler.client.DeleteUser
        (context.WithTimeout r.ctx (time.Second * 10)) ⟨id⟩)
      204 true (h.usersHandler.DeleteUsersId (http.NewResponse header) r id).w ∧
    ReplyFollows (h.usersHandler.client.GetUser
        (context.WithTimeout r.ctx (time.Second * 10)) ⟨id⟩)
      200 false (h.usersHandler.GetUsersId j (http.NewResponse header) r id).w ∧
    (∀ d, json.Decode "pb.UpdateUserRequest" j.objectUpdateUserRequest r.Body
        ⟨"", "", ""⟩ = (d, none) →
      ReplyFollows (h.usersHandler.client.UpdateUser
          (context.WithTimeout r.ctx (time.Second * 10)) { d with Id := id })
        204 true (h.usersHandler.PutUsersId j (http.NewResponse header) r id).w) := by
  refine ⟨?_, ?_, ?_, ?_, ?_, ?_, ?_, ?_, ?_, ?_, ?_⟩
  · unfold v1.linksHandler.GetLinks
    simp only
    cases h.linksHandler.client.ListLinks (context.WithTimeout r.ctx (time.Second * 10)) {} with
    | error e => exact ReplyFollows.of_error header e _ _
    | ok v => exact ReplyFollows.of_encoded header v _
  · intro d hd
    unfold v1.linksHandler.PostLinks
    simp only [hd]
    cases h.linksHandler.client.CreateLink (context.WithTimeout r.ctx (time.Second * 10)) d with
    | error e => exact ReplyFollows.of_error header e _ _
    | ok v => exact ReplyFollows.of_written header v _ (by decide)
  · unfold v1.linksHandler.DeleteLinksId
    simp only
    cases h.linksHandler.client.DeleteLink (context.WithTimeout r.ctx (time.Second * 10))
        ⟨id⟩ with
    | error e => exact ReplyFollows.of_error header e _ _
    | ok v => exact ReplyFollows.of_written header v _ (by decide)
  · unfold v1.Handler.GetLinksId
    simp only
    cases h.linksHandler.client.GetLink (context.WithTimeout r.ctx (time.Second * 10))
        ⟨id⟩ with
    | error e => exact ReplyFollows.of_error header e _ _
    | ok v => exact ReplyFollows.of_encoded header v _
  · intro d hd
    unfold v1.linksHandler.PutLinksId
    simp only [hd]
    cases h.linksHandler.client.UpdateLink (context.WithTimeout r.ctx (time.Second * 10))
        { d with Id := id } with
    | error e => exact ReplyFollows.of_error header e _ _
    | ok v => exact ReplyFollows.of_written header v _ (by decide)
  · unfold v1.linksHandler.GetLinksUserUserID
    simp only
    cases h.linksHandler.client.GetLinkByUserID (context.WithTimeout r.ctx (time.Second * 10))
        ⟨id⟩ with
    | error e => exact ReplyFollows.of_error header e _ _
    | ok v => exact ReplyFollows.of_encoded header v _
  · unfold v1.usersHandler.GetUsers
    simp only
    cases h.usersHandler.client.ListUsers (context.WithTimeout r.ctx (time.Second * 10)) {} with
    | error e => exact ReplyFollows.of_error header e _ _
    | ok v => exact ReplyFollows.of_encoded header v _
  · intro d hd
    unfold v1.usersHandler.PostUsers
    simp only [hd]
    cases h.usersHandler.client.CreateUser (context.WithTimeout r.ctx (time.Second * 10)) d with
    | error e => exact ReplyFollows.of_error header e _ _
    | ok v => exact ReplyFollows.of_written header v _ (by decide)
  · unfold v1.usersHandler.DeleteUsersId
    simp only
    cases h.usersHandler.client.DeleteUser (context.WithTimeout r.ctx (time.Second * 10))
        ⟨id⟩ with
    | error e => exact ReplyFollows.of_error header e _ _
    | ok v => exact ReplyFollows.of_written header v _ (by decide)
  · unfold v1.usersHandler.GetUsersId
    simp only
    cases h.usersHandler.client.GetUser (context.WithTimeout r.ctx (time.Second * 10))
        ⟨id⟩ with
    | error e => exact ReplyFollows.of_error header e _ _
    | ok v => exact ReplyFollows.of_encoded header v _
  · intro d hd
    unfold v1.usersHandler.PutUsersId
    simp only [hd]
    cases h.usersHandler.client.UpdateUser (context.WithTimeout r.ctx (time.Second * 10))
        { d with Id := id } with
    | error e => exact ReplyFollows.of_error header e _ _
    | ok v => exact ReplyFollows.of_written header v _ (by decide)

/-- C5 at `PUT /links/not-a-valid-id` with the body `null`, over the Link handler: the RPC
call fails with `InvalidArgument` and the gateway answers 500 with the error text. -/
theorem C5_status_follows_rpc_outcome_witness :
    json.Decode "pb.UpdateLinkRequest" sampleJSON.objectUpdateLinkRequest (bytes "null")
      ⟨"", "", "", .null, .null, ""⟩ = (⟨"", "", "", .null, .null, ""⟩, none) ∧
    (v1.linksHandler.PutLinksId sampleJSON ⟨emptyLinkHandler.client sampleLinkID⟩
      (http.NewResponse []) ⟨background, bytes "null"⟩ "not-a-valid-id").w.Code = 500 ∧
    (v1.linksHandler.PutLinksId sampleJSON ⟨emptyLinkHandler.client sampleLinkID⟩
      (http.NewResponse []) ⟨background, bytes "null"⟩ "not-a-valid-id").w.body =
      "rpc error: code = " ++ codes.Code.InvalidArgument.String ++ " desc = " ++
        "invalid link ID: the provided hex string is not a valid ObjectID" ++ "\n" :=
  ⟨by decide,
    ((C5_status_follows_rpc_outcome sampleJSON
      ⟨⟨emptyLinkHandler.client sampleLinkID⟩, ⟨emptyUserHandler.client rawQuote⟩⟩ []
      ⟨background, bytes "null"⟩ "not-a-valid-id").2.2.2.2.1
        ⟨"", "", "", .null, .null, ""⟩ (by decide)).1.mpr
      ⟨⟨.InvalidArgument, "invalid link ID: the provided hex string is not a valid ObjectID"⟩,
        by decide⟩,
    ((C5_status_follows_rpc_outcome sampleJSON
      ⟨⟨emptyLinkHandler.client sampleLinkID⟩, ⟨emptyUserHandler.client rawQuote⟩⟩ []
      ⟨background, bytes "null"⟩ "not-a-valid-id").2.2.2.2.1
        ⟨"", "", "", .null, .null, ""⟩ (by decide)).2.1 .InvalidArgument
      "invalid link ID: the provided hex string is not a valid ObjectID" (by decide)⟩

/-! ## Listing an empty repository -/

/-- C6, as stated, fails over the repositories that hold no records: the List operations
succeed, and the gateway answers 200, but the body is `null` (and a newline), not `[]`.
This holds for every codec of the message types. -/
theorem C6_counterexample :
    (emptyLinkHandler.ListLinks ⟨some 10000000000⟩ {}).result = .ok ⟨.null⟩ ∧
    (emptyUserHandler.ListUsers ⟨some 10000000000⟩ {}).result = .ok ⟨.null⟩ ∧
    ¬ Contains "null\n" "[]" ∧
    ∀ j : pb.JSON,
      ((v1.linksHandler.GetLinks j ⟨emptyLinkHandler.client sampleLinkID⟩
          (http.NewResponse []) ⟨background, []⟩).w.Code = 200 ∧
        (v1.linksHandler.GetLinks j ⟨emptyLinkHandler.client sampleLinkID⟩
          (http.NewResponse []) ⟨background, []⟩).w.body = "null\n") ∧
      (v1.linksHandler.GetLinksUserUserID j ⟨emptyLinkHandler.client sampleLinkID⟩
          (http.NewResponse []) ⟨background, []⟩
          "6ba7b810-9dad-11d1-80b4-00c04fd430c8").w.body = "null\n" ∧
      (v1.usersHandler.GetUsers j ⟨emptyUserHandler.client rawQuote⟩
          (http.NewResponse []) ⟨background, []⟩).w.body = "null\n" := by
  refine ⟨by decide, by decide, by decide, fun j => ⟨⟨?_, ?_⟩, ?_, ?_⟩⟩ <;> rfl

theorem foldl_links_nil (s : Slice database.Link) (hs : s.toList = []) :
    (s.toList.foldl (fun (response : pb.ListLinkResponse) (link : database.Link) =>
      { response with Links := response.Links.append {
          Id := link.ID.Hex
          Url := link.URL
          Title := link.Title
          Tags := link.Tags
          Images := link.Images
          UserId := link.UserID } }) { Links := .null }) = ⟨.null⟩ := by
  rw [hs]; rfl

theorem foldl_users_nil (s : Slice database.User) (hs : s.toList = []) :
    (s.toList.foldl (fun (response : pb.ListUsersResponse) (user : database.User) =>
      { response with Users := response.Users.append {
          Id := user.ID.String
          Username := user.Username
          Password := user.Password } }) { Users := .null }) = ⟨.null⟩ := by
  rw [hs]; rfl

theorem encoded_null (header : List (String × String)) :
    (match json.Encode ((http.NewResponse header).Set "Content-Type" "application/json")
        "null" with
      | (w, some err) => http.Error w err http.StatusInternalServerError
      | (w, none) => w) =
      jsonReply header "null\n" := by
  simp [jsonReply, json.Encode, http.NewResponse, http.ResponseWriter.Set,
    http.ResponseWriter.WriteHeader, http.ResponseWriter.Write, http.StatusOK]

/-- C6, amended: when the repository answers `FindAll` / `FindByUserID` with a collection
without records, `ListLinks`, `GetLinkByUserID` and `ListUsers` succeed with the nil
sequence, and `GetLinks`, `GetLinksUserUserID` and `GetUsers` over them answer 200 with
content type `application/json` and the body `null` followed by a newline. -/
theorem C6_empty_list_is_null (quote : List Nat → String) (j : pb.JSON)
    (hl : linkgrpc.Handler) (hu : usergrpc.Handler) (linkID : primitive.ObjectID)
    (header : List (String × String)) (r : http.Request) (userID : String) :
    (∀ all : Slice database.Link,
      hl.linksRepository.FindAll
        (context.WithTimeout (context.WithTimeout r.ctx (time.Second * 10)) hl.timeout) =
          .ok all →
      all.toList = [] →
      (hl.ListLinks (context.WithTimeout r.ctx (time.Second * 10)) {}).result = .ok ⟨.null⟩ ∧
      (v1.linksHandler.GetLinks j ⟨hl.client linkID⟩ (http.NewResponse header) r).w.Code = 200 ∧
      (v1.linksHandler.GetLinks j ⟨hl.client linkID⟩ (http.NewResponse header) r).w.body =
        "null\n" ∧
      ("Content-Type", "application/json") ∈
        (v1.linksHandler.GetLinks j ⟨hl.client linkID⟩ (http.NewResponse header) r).w.sent) ∧
    (∀ byUser : Slice database.Link,
      hl.linksRepository.FindByUserID
        (context.WithTimeout (context.WithTimeout r.ctx (time.Second * 10)) hl.timeout)
        userID = .ok byUser →
      byUser.toList = [] →
      (hl.GetLinkByUserID (context.WithTimeout r.ctx (time.Second * 10)) ⟨userID⟩).result =
        .ok ⟨.null⟩ ∧
      (v1.linksHandler.GetLinksUserUserID j ⟨hl.client linkID⟩ (http.NewResponse header) r
        userID).w.Code = 200 ∧
      (v1.linksHandler.GetLinksUserUserID j ⟨hl.client linkID⟩ (http.NewResponse header) r
        userID).w.body = "null\n" ∧
      ("Content-Type", "application/json") ∈
        (v1.linksHandler.GetLinksUserUserID j ⟨hl.client linkID⟩ (http.NewResponse header) r
          userID).w.sent) ∧
    (∀ users : Slice database.User,
      hu.usersRepository.FindAll
        (context.WithTimeout (context.WithTimeout r.ctx (time.Second * 10)) hu.timeout) =
          .ok users →
      users.toList = [] →
      (hu.ListUsers (context.WithTimeout r.ctx (time.Second * 10)) {}).result = .ok ⟨.null⟩ ∧
      (v1.usersHandler.GetUsers j ⟨hu.client quote⟩ (http.NewResponse header) r).w.Code = 200 ∧
      (v1.usersHandler.GetUsers j ⟨hu.client quote⟩ (http.NewResponse header) r).w.body =
        "null\n" ∧
      ("Content-Type", "application/json") ∈
        (v1.usersHandler.GetUsers j ⟨hu.client quote⟩ (http.NewResponse header) r).w.sent) := by
  refine ⟨?_, ?_, ?_⟩
  · intro all hall hnil
    have h1 : (hl.ListLinks (context.WithTimeout r.ctx (time.Second * 10)) {}).result =
        .ok ⟨.null⟩ := by
      simp only [linkgrpc.Handler.ListLinks, hall, foldl_links_nil all hnil]
    have h2 : (v1.linksHandler.GetLinks j ⟨hl.client linkID⟩ (http.NewResponse header) r).w =
        jsonReply header "null\n" := by
      simp only [v1.linksHandler.GetLinks, linkgrpc.Handler.client, h1, Except.map,
        pb.ListLinkResponse.transmit, Slice.map, Slice.transmit, json.marshalSlice]
      exact encoded_null header
    refine ⟨h1, ?_, ?_, ?_⟩ <;> rw [h2] <;> simp [http.ResponseWriter.Code, jsonReply]
  · intro byUser hby hnil
    have h1 : (hl.GetLinkByUserID (context.WithTimeout r.ctx (time.Second * 10))
        ⟨userID⟩).result = .ok ⟨.null⟩ := by
      simp only [linkgrpc.Handler.GetLinkByUserID, hby, foldl_links_nil byUser hnil]
    have h2 : (v1.linksHandler.GetLinksUserUserID j ⟨hl.client linkID⟩
        (http.NewResponse header) r userID).w = jsonReply header "null\n" := by
      simp only [v1.linksHandler.GetLinksUserUserID, linkgrpc.Handler.client, h1, Except.map,
        pb.ListLinkResponse.transmit, Slice.map, Slice.transmit, json.marshalSlice]
      exact encoded_null header
    refine ⟨h1, ?_, ?_, ?_⟩ <;> rw [h2] <;> simp [http.ResponseWriter.Code, jsonReply]
  · intro users hall hnil
    have h1 : (hu.ListUsers (context.WithTimeout r.ctx (time.Second * 10)) {}).result =
        .ok ⟨.null⟩ := by
      simp only [usergrpc.Handler.ListUsers, hall, foldl_users_nil users hnil]
    have h2 : (v1.usersHandler.GetUsers j ⟨hu.client quote⟩ (http.NewResponse header) r).w =
        jsonReply header "null\n" := by
      simp only [v1.usersHandler.GetUsers, usergrpc.Handler.client, h1, Except.map,
        pb.ListUsersResponse.transmit, Slice.transmit, json.marshalSlice]
      exact encoded_null header
    refine ⟨h1, ?_, ?_, ?_⟩ <;> rw [h2] <;> simp [http.ResponseWriter.Code, jsonReply]

/-- The amended C6 over the empty Link repository. -/
theorem C6_empty_list_is_null_witness :
    emptyLinkHandler.linksRepository.FindAll
      (context.WithTimeout (context.WithTimeout background (time.Second * 10))
        emptyLinkHandler.timeout) = .ok (.mk []) ∧
    (Slice.mk ([] : List database.Link)).toList = [] ∧
    (v1.linksHandler.GetLinks sampleJSON ⟨emptyLinkHandler.client sampleLinkID⟩
      (http.NewResponse []) ⟨background, []⟩).w.body = "null\n" :=
  ⟨rfl, rfl,
    ((C6_empty_list_is_null rawQuote sampleJSON emptyLinkHandler emptyUserHandler sampleLinkID
      [] ⟨background, []⟩ "6ba7b810-9dad-11d1-80b4-00c04fd430c8").1 (.mk []) rfl rfl).2.2.1⟩

/-! ## Checks -/

example : primitive.ObjectIDFromHex "not-a-valid-id" = .error .ErrInvalidHex := by decide
example : primitive.ObjectIDFromHex "zzzzzzzzzzzzzzzzzzzzzzzz" = .error (.decode (.InvalidByteError 122)) := by decide
example : (primitive.Error.decode (.InvalidByteError 122)).Error = "encoding/hex: invalid byte: U+007A 'z'" := by decide
example : (primitive.ObjectIDFromHex "0123456789abcdefABCDEF00").map primitive.ObjectID.Hex = .ok "0123456789abcdefabcdef00" := by decide
example : fmt.decimal 36 = "36" := by decide
example : uuid.Parse "00000000000000000000000000000000" = .ok uuid.Nil := by decide
example : (uuid.Parse "6ba7b810-9dad-11d1-80b4-00c04fd430c8").map uuid.UUID.String = .ok "6ba7b810-9dad-11d1-80b4-00c04fd430c8" := by decide
example : (uuid.Parse "URN:uuid:6BA7B810-9dad-11d1-80b4-00c04fd430c8").map uuid.UUID.String = .ok "6ba7b810-9dad-11d1-80b4-00c04fd430c8" := by decide
example : (uuid.Parse "x6BA7B810-9dad-11d1-80b4-00c04fd430c8y").map uuid.UUID.String = .ok "6ba7b810-9dad-11d1-80b4-00c04fd430c8" := by decide
example : uuid.Parse "abc" = .error (.invalidLength 3) := by decide
example : uuid.Parse "6ba7b810-9dad-11d1-80b4-00c04fd430cg" = .error .invalidFormat := by decide

example : json.readValue (bytes "") = .error .EOF := by decide
example : json.readValue (bytes "  \n") = .error .EOF := by decide
example : json.readValue (bytes "\x7b\x7dx") = .ok 2 := by decide
example : json.readValue (bytes "nullx") = .ok 4 := by decide
example : json.readValue (bytes "\x7b") = .error .ErrUnexpectedEOF := by decide
example : json.readValue (bytes "tru") = .error .ErrUnexpectedEOF := by decide
example : json.readValue (bytes "12") = .ok 2 := by decide
example : json.readValue (bytes " \x7b\"a\": [1, -2.5e3, \"x\\n\\u00e9\"], \"b\": null\x7d tail") = .ok 43 := by decide
example : json.readValue (bytes "\x7bx") = .error (.invalid ⟨"invalid character 'x' looking for beginning of object key string", 2⟩) := by decide
example : json.readValue (bytes "[1,]") = .error (.invalid ⟨"invalid character ']' looking for beginning of value", 4⟩) := by decide

end Umanager
